import Mathlib

/-!
FaceMoodDetection (src/Main.js): detection cycle and emotion aggregation

A shallow embedding of the stateful core of the class `FaceMoodDetection`:
the instance fields become a record, every method becomes a function on that
record, and the browser facilities the methods talk to (interval and timeout
timers, the speech queue, the text nodes written by the `update*` methods) are
explicit fields of the same record.

Modelling conventions.
* Emotion labels are the seven keys of `emotionConfig`.
* Scores are JavaScript numbers that are only ever compared and subtracted
  inside a comparator; they are represented by rationals (no NaN), and the
  literal `0.1` by `1/10`.
* `Object.entries` of an object with non-numeric string keys enumerates the
  keys in insertion order, so such an object is an association list.
* `Array.prototype.sort` is stable; the comparator `([, a], [, b]) => b - a`
  is negative exactly when `a > b`, so the result is the stable sort by
  descending second component.
* `detectEmotion` is `async`: its guards run when the timer invokes it, its
  writes run when the awaited detection settles. `detectEmotionResume` is the
  second half, applied to the state the page is in at that moment;
  `detectEmotion` is a poll during which nothing else happens. A detection
  that settles after other events have run is the event `pollCompletes`.
-/

namespace FaceMoodDetection

/-! ## Data model -/

/-- The keys of `emotionConfig` (lines 19-27). -/
inductive Emotion where
  | happy
  | sad
  | angry
  | surprised
  | neutral
  | fearful
  | disgusted
deriving DecidableEq, Repr

/-- The object literal `emotionData` built at lines 319-323. -/
structure EmotionData where
  emotion : Emotion
  confidence : ℚ
  timestamp : Nat
deriving DecidableEq, Repr

/-- What `updateCurrentEmotion` last rendered into the current-emotion panel:
an observation, or one of the two placeholder texts of its `else` branch. -/
inductive Panel where
  | showing (d : EmotionData)
  | analyzing
  | noFaceDetected
deriving DecidableEq, Repr

/-- The instance fields of `FaceMoodDetection` (constructor, lines 7-17)
followed by the parts of the browser the methods act on. -/
structure App where
  isModelLoaded : Bool
  isCameraOn : Bool
  isDetecting : Bool
  stream : Option Nat
  detectionInterval : Option Nat
  faceDetected : Bool
  emotionHistory : List EmotionData
  currentEmotion : Option EmotionData
  lastSpokenEmotion : Option Emotion
  /-- Ids of the interval timers that are currently armed. -/
  intervals : List Nat
  /-- The id the next `setInterval` / `setTimeout` call returns. -/
  nextTimerId : Nat
  /-- Due times (ms) of the pending `setTimeout` callbacks of lines 335-339. -/
  timeouts : List Nat
  /-- Labels of the utterances "You look <label>" handed to `speechSynthesis.speak`. -/
  spoken : List Emotion
  /-- The current-emotion panel written by `updateCurrentEmotion`. -/
  emotionPanel : Panel
  /-- The list rendered by `updateHistoryUI`. -/
  historyPanel : List EmotionData
  /-- Text of `#total-detections`. -/
  totalDetections : Nat
  /-- Text of `#frequent-emotion-name`, once it has been written. -/
  frequentEmotionName : Option Emotion
  /-- Whether `#face-status` is visible. -/
  faceStatusVisible : Bool
  /-- Messages passed to `console.error` by the `catch` of `detectEmotion`. -/
  consoleErrors : List String
deriving DecidableEq, Repr

/-- The state right after the constructor has assigned the fields
(lines 7-17); timer ids handed out by a browser are positive. -/
def initial : App :=
  { isModelLoaded := false
    isCameraOn := false
    isDetecting := false
    stream := none
    detectionInterval := none
    faceDetected := false
    emotionHistory := []
    currentEmotion := none
    lastSpokenEmotion := none
    intervals := []
    nextTimerId := 1
    timeouts := []
    spoken := []
    emotionPanel := Panel.noFaceDetected
    historyPanel := []
    totalDetections := 0
    frequentEmotionName := none
    faceStatusVisible := false
    consoleErrors := [] }

/-! ## Array helpers -/

/-- `arr.slice(-n)`: the last `n` elements, or all of them when there are fewer. -/
def sliceLast {α : Type} (n : Nat) (arr : List α) : List α :=
  arr.drop (arr.length - n)

/-- `entries.sort(([, a], [, b]) => b - a)`: stable sort by descending second
component (an entry is moved in front of another one only when its value is
strictly larger). -/
def sortDescending {α β : Type} [LinearOrder β] (entries : List (α × β)) : List (α × β) :=
  entries.insertionSort (fun x y => y.2 ≤ x.2)

/-- One step of the `reduce` at lines 449-452,
`acc[e] = (acc[e] || 0) + 1`, on an insertion-ordered object: an existing key
keeps its position and gets its count incremented, a new key is added last. -/
def bump : List (Emotion × Nat) → Emotion → List (Emotion × Nat)
  | [], e => [(e, 1)]
  | (k, c) :: rest, e => if k = e then (k, c + 1) :: rest else (k, c) :: bump rest e

/-- The object `emotionCounts` (lines 449-452), as its list of entries. -/
def emotionCounts (recentEmotions : List EmotionData) : List (Emotion × Nat) :=
  recentEmotions.foldl (fun acc d => bump acc d.emotion) []

/-- The entry `mostFrequent` of lines 448-456 (`undefined` is `none`). -/
def mostFrequent (emotionHistory : List EmotionData) : Option (Emotion × Nat) :=
  (sortDescending (emotionCounts (sliceLast 10 emotionHistory))).head?

/-! ## Methods -/

/-- `showFaceStatus` (lines 466-468). -/
def showFaceStatus (s : App) : App :=
  { s with faceStatusVisible := true }

/-- `hideFaceStatus` (lines 470-472). -/
def hideFaceStatus (s : App) : App :=
  { s with faceStatusVisible := false }

/-- `updateCurrentEmotion` (lines 359-401). -/
def updateCurrentEmotion (s : App) (emotionData : Option EmotionData) : App :=
  match emotionData with
  | some d => { s with emotionPanel := Panel.showing d }
  | none =>
    { s with emotionPanel := if s.faceDetected then Panel.analyzing else Panel.noFaceDetected }

/-- `updateHistoryUI` (lines 414-441): the last six observations, newest first. -/
def updateHistoryUI (s : App) : App :=
  { s with historyPanel := (sliceLast 6 s.emotionHistory).reverse }

/-- `updateStats` (lines 443-464). -/
def updateStats (s : App) : App :=
  let s1 := { s with totalDetections := s.emotionHistory.length }
  if s1.emotionHistory.length > 0 then
    match mostFrequent s1.emotionHistory with
    | some entry => { s1 with frequentEmotionName := some entry.1 }
    | none => s1
  else s1

/-- `addToHistory` (lines 403-412). -/
def addToHistory (s : App) (emotionData : EmotionData) : App :=
  let s1 := { s with emotionHistory := s.emotionHistory ++ [emotionData] }
  let s2 :=
    if s1.emotionHistory.length > 20 then
      { s1 with emotionHistory := sliceLast 20 s1.emotionHistory }
    else s1
  updateStats (updateHistoryUI s2)

/-- `speakEmotion` (lines 347-356). -/
def speakEmotion (s : App) (emotion : Emotion) : App :=
  if s.lastSpokenEmotion = some emotion then s
  else { s with lastSpokenEmotion := some emotion, spoken := s.spoken ++ [emotion] }

/-- `startCamera` (lines 182-205); `granted` is the outcome of
`getUserMedia`: a stream, or `none` when the promise rejects. -/
def startCamera (s : App) (granted : Option Nat) : App :=
  match granted with
  | some media => { s with stream := some media, isCameraOn := true }
  | none => s

/-- `clearInterval(id)`. -/
def clearInterval (s : App) (id : Nat) : App :=
  { s with intervals := s.intervals.filter (fun t => t ≠ id) }

/-- `stopCamera` (lines 207-230). A timer id is truthy unless it is `0`. -/
def stopCamera (s : App) : App :=
  let s1 := { s with stream := none }
  let s2 :=
    match s1.detectionInterval with
    | some (id + 1) => { clearInterval s1 (id + 1) with detectionInterval := none }
    | _ => s1
  let s3 :=
    { s2 with isCameraOn := false, isDetecting := false, faceDetected := false,
              currentEmotion := none }
  hideFaceStatus (updateCurrentEmotion s3 none)

/-- `startDetection` (lines 254-261). -/
def startDetection (s : App) : App :=
  if s.isDetecting then s
  else
    { s with isDetecting := true,
             detectionInterval := some s.nextTimerId,
             intervals := s.intervals ++ [s.nextTimerId],
             nextTimerId := s.nextTimerId + 1 }

/-- The `loadedmetadata` listener (lines 142-146). -/
def onLoadedMetadata (s : App) : App :=
  startDetection s

/-- The click listener of the camera button (lines 134-140). -/
def onCameraClick (s : App) (granted : Option Nat) : App :=
  if s.isCameraOn then stopCamera s else startCamera s granted

/-- The successful path of `loadModels` (lines 122-125). -/
def modelsLoaded (s : App) : App :=
  { s with isModelLoaded := true }

/-- The literal `0.1` of line 318. -/
def acceptanceThreshold : ℚ :=
  mkRat 1 10

/-- What the awaited detection call (lines 281-284) produced in one poll. -/
inductive Detection where
  | throws (message : String)
  | noFace
  | face (expressions : List (Emotion × ℚ))
deriving DecidableEq, Repr

/-- The inputs of one poll: `video.readyState`, the detection outcome and
the clock (`Date.now()`, also the time at which `setTimeout` is called). -/
structure Poll where
  readyState : Nat
  detection : Detection
  now : Nat
deriving DecidableEq, Repr

/-- The body of the `try` block of `detectEmotion` (lines 270-340). An
exception carries the state reached when it was thrown. Taking the first
element of an empty `sortedExpressions` for destructuring throws. -/
def detectEmotionTry (s : App) (p : Poll) : Except (String × App) App :=
  match p.detection with
  | Detection.throws message => Except.error (message, s)
  | Detection.face expressions =>
    let s1 := showFaceStatus { s with faceDetected := true }
    match sortDescending expressions with
    | [] => Except.error ("TypeError: undefined is not iterable", s1)
    | (maxExpression, confidence) :: _ =>
      if confidence > acceptanceThreshold then
        let emotionData : EmotionData :=
          { emotion := maxExpression, confidence := confidence, timestamp := p.now }
        let s2 := { s1 with currentEmotion := some emotionData }
        let s3 := updateCurrentEmotion s2 (some emotionData)
        let s4 := addToHistory s3 emotionData
        Except.ok (speakEmotion s4 emotionData.emotion)
      else Except.ok s1
  | Detection.noFace =>
    let s1 := hideFaceStatus { s with faceDetected := false }
    Except.ok
      { s1 with timeouts := s1.timeouts ++ [p.now + 1000],
                nextTimerId := s1.nextTimerId + 1 }

/-- The part of `detectEmotion` that runs once the awaited detection (line
281) has settled: the rest of the `try` block (lines 286-340) and the `catch`
(lines 341-343), which only logs. `s` is the state of the page at that moment,
which need not be the state in which the guards were tested. -/
def detectEmotionResume (s : App) (p : Poll) : Except String App :=
  match detectEmotionTry s p with
  | Except.ok s1 => Except.ok s1
  | Except.error (message, s1) =>
    Except.ok { s1 with consoleErrors := s1.consoleErrors ++ [message] }

/-- `detectEmotion` (lines 263-344) when no other event runs while the
detection is awaited: the two guards (lines 264-267), then the resumption. -/
def detectEmotion (s : App) (p : Poll) : Except String App :=
  if !s.isCameraOn || !s.isModelLoaded then Except.ok s
  else if p.readyState ≠ 4 then Except.ok s
  else detectEmotionResume s p

/-- The callback passed to `setTimeout` at lines 335-339. -/
def graceClear (s : App) : App :=
  if !s.faceDetected then updateCurrentEmotion s none else s

/-- The event loop up to time `t`: every pending callback that is due by then
fires, in the order in which the callbacks were scheduled. -/
def fireDue (s : App) (t : Nat) : App :=
  (s.timeouts.filter (fun due => due ≤ t)).foldl (fun acc _ => graceClear acc)
    { s with timeouts := s.timeouts.filter (fun due => ¬ due ≤ t) }

/-- The state after a poll; `detectEmotion` never raises, the fallback is unused. -/
def afterPoll (s : App) (p : Poll) : App :=
  match detectEmotion s p with
  | Except.ok s1 => s1
  | Except.error _ => s

/-- The state after a detection that was in flight has settled. -/
def afterResume (s : App) (p : Poll) : App :=
  match detectEmotionResume s p with
  | Except.ok s1 => s1
  | Except.error _ => s

/-- A timeline of polls: before each poll the callbacks due by its time fire. -/
def runPolls (s : App) (polls : List Poll) : App :=
  polls.foldl (fun acc p => afterPoll (fireDue acc p.now) p) s

/-- A state in which the camera runs, the models are loaded and polling has begun. -/
def readyApp : App :=
  onLoadedMetadata (onCameraClick (modelsLoaded initial) (some 7))

/-- Appending all observations of a list, oldest first. -/
def addAllToHistory (s : App) (observations : List EmotionData) : App :=
  observations.foldl addToHistory s

/-- The distinct labels of a window in the order of their first occurrence:
the key order of the object built by the `reduce` at lines 449-452. -/
def firstOccurrences (w : List Emotion) : List Emotion :=
  w.reverse.dedup.reverse

/-- For every label of a sequence passed in order to `speakEmotion`: whether
that call handed an utterance to the speech queue. -/
def narrationFlags (s : App) : List Emotion → List Bool
  | [] => []
  | e :: es =>
    decide ((speakEmotion s e).spoken ≠ s.spoken) :: narrationFlags (speakEmotion s e) es

/-- The state after `speakEmotion` has been called with each label in turn. -/
def speakAll (s : App) (labels : List Emotion) : App :=
  labels.foldl speakEmotion s

/-- What can happen to the page. -/
inductive Event where
  /-- `loadModels` succeeds. -/
  | modelsLoaded
  /-- A click on the camera button whose permission request, if one is made,
  settles at once (`none`: it is rejected or still pending). -/
  | cameraClick (granted : Option Nat)
  /-- A permission request made by an earlier click is granted. -/
  | cameraGranted (media : Nat)
  /-- The video fires `loadedmetadata`. -/
  | loadedMetadata
  /-- The polling timer fires and the detection settles before anything else happens. -/
  | poll (p : Poll)
  /-- A detection started by an earlier poll settles. -/
  | pollCompletes (p : Poll)
  /-- The clock reaches `t`: the pending callbacks due by then fire. -/
  | clock (t : Nat)
deriving DecidableEq, Repr

/-- The effect of one event. -/
def step (s : App) : Event → App
  | Event.modelsLoaded => modelsLoaded s
  | Event.cameraClick granted => onCameraClick s granted
  | Event.cameraGranted media => startCamera s (some media)
  | Event.loadedMetadata => onLoadedMetadata s
  | Event.poll p => afterPoll s p
  | Event.pollCompletes p => afterResume s p
  | Event.clock t => fireDue s t

/-- The effect of a sequence of events. -/
def run (s : App) (events : List Event) : App :=
  events.foldl step s

/-- The states the page can be in: the constructor state followed by any
sequence of events. A settling detection is allowed at any time, so the states
left by a detection that was in flight across other events are included. -/
inductive Reachable : App → Prop
  | start : Reachable initial
  | next (s : App) (e : Event) : Reachable s → Reachable (step s e)

/-- The debouncer's memory agrees with the speech queue: `lastSpokenEmotion`
is the label narrated most recently, and null when nothing was narrated. -/
def SpokenInv (s : App) : Prop :=
  s.lastSpokenEmotion = s.spoken.getLast?

/-- The bookkeeping of the polling timer: timer ids are positive, and the
armed interval timers are exactly the one recorded in `detectionInterval`,
which is present exactly while `isDetecting` holds. -/
def TimerInv (s : App) : Prop :=
  0 < s.nextTimerId ∧
  ((s.isDetecting = false ∧ s.detectionInterval = none ∧ s.intervals = []) ∨
    (s.isDetecting = true ∧
      ∃ id, 0 < id ∧ s.detectionInterval = some id ∧ s.intervals = [id]))

/-- What a poll leaves alone: the polling flag, the polling timer and the
readiness flags; timer ids only grow, and the last spoken label is kept or
replaced by another label. -/
def PollFrame (s s1 : App) : Prop :=
  s1.isDetecting = s.isDetecting ∧
  s1.detectionInterval = s.detectionInterval ∧
  s1.intervals = s.intervals ∧
  s1.isCameraOn = s.isCameraOn ∧
  s1.isModelLoaded = s.isModelLoaded ∧
  s.nextTimerId ≤ s1.nextTimerId ∧
  (s1.lastSpokenEmotion = s.lastSpokenEmotion ∨ ∃ l, s1.lastSpokenEmotion = some l)

/-- The models are loaded, the camera was started and stopped again before the
video reported its metadata: the camera is off, nothing is detecting. -/
def stoppedEarly : App :=
  onCameraClick (onCameraClick (modelsLoaded initial) (some 7)) none

/-- A running detection that has accepted and narrated happy once. -/
def narratedHappy : App :=
  afterPoll readyApp ⟨4, Detection.face [(Emotion.happy, mkRat 9 10)], 5⟩

/-- The camera is stopped in `narratedHappy` and started again. -/
def restarted : App :=
  onLoadedMetadata (onCameraClick (onCameraClick narratedHappy none) (some 8))

/-- A timeline on which the face is lost at 0 ms, found again (happy) at
200 ms and lost again at 400 ms. -/
def flicker : App :=
  runPolls readyApp
    [⟨4, Detection.noFace, 0⟩,
     ⟨4, Detection.face [(Emotion.happy, mkRat 9 10)], 200⟩,
     ⟨4, Detection.noFace, 400⟩]

/-- The camera is stopped while a detection is in flight, and the detection
then settles with a face: the camera is off and `faceDetected` is true. -/
def stoppedInFlight : App :=
  run readyApp
    [Event.cameraClick none,
     Event.pollCompletes ⟨4, Detection.face [(Emotion.happy, mkRat 9 10)], 5⟩]

/-- How one event may change the debouncer's memory and the speech queue:
not at all, or by narrating a label other than the remembered one. -/
def SpokenStep (s s1 : App) : Prop :=
  (s1.lastSpokenEmotion = s.lastSpokenEmotion ∧ s1.spoken = s.spoken) ∨
  ∃ l, s.lastSpokenEmotion ≠ some l ∧ s1.lastSpokenEmotion = some l ∧
    s1.spoken = s.spoken ++ [l]

/-! ## Auxiliary lemmas -/

theorem acceptanceThreshold_eq : acceptanceThreshold = 1 / 10 := by
  simp [acceptanceThreshold, Rat.mkRat_eq_div]

/-- The head of the sorted entries is the first entry carrying the largest value. -/
theorem sortDescending_head {α β : Type} [LinearOrder β] (l : List (α × β)) (hne : l ≠ []) :
    ∃ pre e post rest, l = pre ++ e :: post ∧ sortDescending l = e :: rest ∧
      (∀ x ∈ pre, x.2 < e.2) ∧ (∀ x ∈ post, x.2 ≤ e.2) := by
  induction l with
  | nil => exact absurd rfl hne
  | cons a l ih =>
    by_cases hl : l = []
    · subst hl
      exact ⟨[], a, [], [], rfl, rfl, by simp, by simp⟩
    · obtain ⟨pre, e, post, rest, hsplit, hsort, hpre, hpost⟩ := ih hl
      have hstep : sortDescending (a :: l) =
          List.orderedInsert (fun x y : α × β => y.2 ≤ x.2) a (e :: rest) := by
        unfold sortDescending at hsort ⊢
        rw [List.insertionSort, hsort]
      by_cases hae : e.2 ≤ a.2
      · refine ⟨[], a, l, e :: rest, rfl, ?_, by simp, ?_⟩
        · rw [hstep, List.orderedInsert, if_pos hae]
        · intro x hx
          rw [hsplit] at hx
          rcases List.mem_append.1 hx with h | h
          · exact le_trans (le_of_lt (hpre x h)) hae
          · rcases List.mem_cons.1 h with h | h
            · rw [h]; exact hae
            · exact le_trans (hpost x h) hae
      · refine ⟨a :: pre, e, post, List.orderedInsert (fun x y : α × β => y.2 ≤ x.2) a rest,
          by rw [hsplit]; rfl, ?_, ?_, hpost⟩
        · rw [hstep, List.orderedInsert, if_neg hae]
        · intro x hx
          rcases List.mem_cons.1 hx with h | h
          · rw [h]; exact lt_of_not_le hae
          · exact hpre x h

theorem updateStats_fields (s : App) :
    (updateStats s).emotionHistory = s.emotionHistory ∧
    (updateStats s).currentEmotion = s.currentEmotion ∧
    (updateStats s).emotionPanel = s.emotionPanel ∧
    (updateStats s).lastSpokenEmotion = s.lastSpokenEmotion ∧
    (updateStats s).spoken = s.spoken ∧
    (updateStats s).isDetecting = s.isDetecting ∧
    (updateStats s).detectionInterval = s.detectionInterval ∧
    (updateStats s).intervals = s.intervals ∧
    (updateStats s).faceDetected = s.faceDetected ∧
    (updateStats s).isCameraOn = s.isCameraOn ∧
    (updateStats s).isModelLoaded = s.isModelLoaded ∧
    (updateStats s).nextTimerId = s.nextTimerId ∧
    (updateStats s).timeouts = s.timeouts := by
  unfold updateStats
  dsimp only
  split
  · split <;> simp
  · simp

theorem addToHistory_fields (s : App) (d : EmotionData) :
    (addToHistory s d).currentEmotion = s.currentEmotion ∧
    (addToHistory s d).emotionPanel = s.emotionPanel ∧
    (addToHistory s d).lastSpokenEmotion = s.lastSpokenEmotion ∧
    (addToHistory s d).spoken = s.spoken ∧
    (addToHistory s d).isDetecting = s.isDetecting ∧
    (addToHistory s d).detectionInterval = s.detectionInterval ∧
    (addToHistory s d).intervals = s.intervals ∧
    (addToHistory s d).faceDetected = s.faceDetected ∧
    (addToHistory s d).isCameraOn = s.isCameraOn ∧
    (addToHistory s d).isModelLoaded = s.isModelLoaded ∧
    (addToHistory s d).nextTimerId = s.nextTimerId ∧
    (addToHistory s d).timeouts = s.timeouts := by
  unfold addToHistory
  dsimp only
  obtain ⟨-, h2, h3, h4, h5, h6, h7, h8, h9, h10, h11, h12, h13⟩ := updateStats_fields
    (updateHistoryUI (if (s.emotionHistory ++ [d]).length > 20 then
      { s with emotionHistory := sliceLast 20 (s.emotionHistory ++ [d]) }
    else { s with emotionHistory := s.emotionHistory ++ [d] }))
  rw [h2, h3, h4, h5, h6, h7, h8, h9, h10, h11, h12, h13]
  unfold updateHistoryUI
  split <;> simp

theorem addToHistory_emotionHistory (s : App) (d : EmotionData) :
    (addToHistory s d).emotionHistory =
      if s.emotionHistory.length + 1 > 20 then sliceLast 20 (s.emotionHistory ++ [d])
      else s.emotionHistory ++ [d] := by
  unfold addToHistory
  dsimp only
  rw [(updateStats_fields _).1]
  unfold updateHistoryUI
  simp only [List.length_append, List.length_singleton]
  split <;> rfl

theorem sliceLast_append_singleton_getLast? {α : Type} (n : Nat) (l : List α) (x : α) :
    (sliceLast (n + 1) (l ++ [x])).getLast? = some x := by
  unfold sliceLast
  rw [List.getLast?_drop]
  simp
  omega

theorem addToHistory_getLast? (s : App) (d : EmotionData) :
    (addToHistory s d).emotionHistory.getLast? = some d := by
  rw [addToHistory_emotionHistory]
  split
  · exact sliceLast_append_singleton_getLast? 19 _ _
  · simp

theorem speakEmotion_fields (s : App) (e : Emotion) :
    (speakEmotion s e).currentEmotion = s.currentEmotion ∧
    (speakEmotion s e).emotionPanel = s.emotionPanel ∧
    (speakEmotion s e).emotionHistory = s.emotionHistory ∧
    (speakEmotion s e).isDetecting = s.isDetecting ∧
    (speakEmotion s e).detectionInterval = s.detectionInterval ∧
    (speakEmotion s e).intervals = s.intervals ∧
    (speakEmotion s e).faceDetected = s.faceDetected ∧
    (speakEmotion s e).isCameraOn = s.isCameraOn ∧
    (speakEmotion s e).isModelLoaded = s.isModelLoaded ∧
    (speakEmotion s e).nextTimerId = s.nextTimerId ∧
    (speakEmotion s e).timeouts = s.timeouts := by
  unfold speakEmotion
  split <;> simp

/-! ## C1: classification -/

/-- What the `try` block does with a face whose expressions sort to `e :: rest`. -/
theorem detectEmotionTry_face (s : App) (r : Nat) (D : List (Emotion × ℚ)) (now : Nat)
    (e : Emotion × ℚ) (rest : List (Emotion × ℚ)) (hsort : sortDescending D = e :: rest) :
    detectEmotionTry s ⟨r, Detection.face D, now⟩ =
      if e.2 > acceptanceThreshold then
        Except.ok (speakEmotion (addToHistory (updateCurrentEmotion
          { showFaceStatus { s with faceDetected := true } with
            currentEmotion := some ⟨e.1, e.2, now⟩ } (some ⟨e.1, e.2, now⟩)) ⟨e.1, e.2, now⟩) e.1)
      else Except.ok (showFaceStatus { s with faceDetected := true }) := by
  obtain ⟨l, c⟩ := e
  simp only [detectEmotionTry, hsort]

/-- A poll that passes the guards and whose `try` block completes returns
the state the block produced. -/
theorem detectEmotion_of_try_ok (s : App) (p : Poll) (s1 : App)
    (hcam : s.isCameraOn = true) (hmodel : s.isModelLoaded = true) (hready : p.readyState = 4)
    (htry : detectEmotionTry s p = Except.ok s1) : detectEmotion s p = Except.ok s1 := by
  simp [detectEmotion, detectEmotionResume, hcam, hmodel, hready, htry]

/-- C1. For a non-empty distribution `D`, a poll that is not skipped picks the
first entry of `D` (in enumeration order) whose score is maximal; it creates an
observation with that label and score (current emotion, panel, newest history
entry) when the score is strictly above 0.1, and otherwise leaves the current
emotion, the panel, the history and the narration state as they were. -/
theorem detectEmotion_classifies (s : App) (D : List (Emotion × ℚ)) (now : Nat)
    (hcam : s.isCameraOn = true) (hmodel : s.isModelLoaded = true) (hD : D ≠ []) :
    ∃ pre e post s1, D = pre ++ e :: post ∧
      (∀ x ∈ pre, x.2 < e.2) ∧ (∀ x ∈ post, x.2 ≤ e.2) ∧
      detectEmotion s ⟨4, Detection.face D, now⟩ = Except.ok s1 ∧
      (1 / 10 < e.2 →
        s1.currentEmotion = some ⟨e.1, e.2, now⟩ ∧
        s1.emotionPanel = Panel.showing ⟨e.1, e.2, now⟩ ∧
        s1.emotionHistory.getLast? = some ⟨e.1, e.2, now⟩) ∧
      (e.2 ≤ 1 / 10 →
        s1.currentEmotion = s.currentEmotion ∧
        s1.emotionPanel = s.emotionPanel ∧
        s1.emotionHistory = s.emotionHistory ∧
        s1.lastSpokenEmotion = s.lastSpokenEmotion ∧
        s1.spoken = s.spoken) := by
  obtain ⟨pre, e, post, rest, hsplit, hsort, hpre, hpost⟩ := sortDescending_head D hD
  have htry := detectEmotionTry_face s 4 D now e rest hsort
  by_cases hacc : e.2 > acceptanceThreshold
  · rw [if_pos hacc] at htry
    have hdet := detectEmotion_of_try_ok s _ _ hcam hmodel rfl htry
    refine ⟨pre, e, post, _, hsplit, hpre, hpost, hdet, ?_, ?_⟩
    · intro _
      obtain ⟨h1, h2, h3, -⟩ := speakEmotion_fields (addToHistory (updateCurrentEmotion
          { showFaceStatus { s with faceDetected := true } with
            currentEmotion := some ⟨e.1, e.2, now⟩ } (some ⟨e.1, e.2, now⟩)) ⟨e.1, e.2, now⟩) e.1
      obtain ⟨g1, g2, -⟩ := addToHistory_fields (updateCurrentEmotion
          { showFaceStatus { s with faceDetected := true } with
            currentEmotion := some ⟨e.1, e.2, now⟩ } (some ⟨e.1, e.2, now⟩)) ⟨e.1, e.2, now⟩
      refine ⟨?_, ?_, ?_⟩
      · rw [h1, g1]; rfl
      · rw [h2, g2]; rfl
      · rw [h3]; exact addToHistory_getLast? _ _
    · intro hle
      rw [acceptanceThreshold_eq] at hacc
      exact absurd hacc (not_lt_of_le hle)
  · rw [if_neg hacc] at htry
    have hdet := detectEmotion_of_try_ok s _ _ hcam hmodel rfl htry
    refine ⟨pre, e, post, _, hsplit, hpre, hpost, hdet, ?_, ?_⟩
    · intro hlt
      rw [acceptanceThreshold_eq] at hacc
      exact absurd hlt hacc
    · intro _
      exact ⟨rfl, rfl, rfl, rfl, rfl⟩

/-- Witness for C1: two entries tie at the maximum 9/10, the first one wins. -/
theorem detectEmotion_classifies_witness :
    (readyApp.isCameraOn = true ∧ readyApp.isModelLoaded = true ∧
      [(Emotion.sad, mkRat 1 20), (Emotion.happy, mkRat 9 10), (Emotion.neutral, mkRat 9 10)] ≠ []) ∧
    ∃ pre e post s1,
      [(Emotion.sad, mkRat 1 20), (Emotion.happy, mkRat 9 10), (Emotion.neutral, mkRat 9 10)] =
        pre ++ e :: post ∧
      (∀ x ∈ pre, x.2 < e.2) ∧ (∀ x ∈ post, x.2 ≤ e.2) ∧
      detectEmotion readyApp ⟨4, Detection.face
        [(Emotion.sad, mkRat 1 20), (Emotion.happy, mkRat 9 10), (Emotion.neutral, mkRat 9 10)],
        5⟩ = Except.ok s1 ∧
      (1 / 10 < e.2 →
        s1.currentEmotion = some ⟨e.1, e.2, 5⟩ ∧
        s1.emotionPanel = Panel.showing ⟨e.1, e.2, 5⟩ ∧
        s1.emotionHistory.getLast? = some ⟨e.1, e.2, 5⟩) ∧
      (e.2 ≤ 1 / 10 →
        s1.currentEmotion = readyApp.currentEmotion ∧
        s1.emotionPanel = readyApp.emotionPanel ∧
        s1.emotionHistory = readyApp.emotionHistory ∧
        s1.lastSpokenEmotion = readyApp.lastSpokenEmotion ∧
        s1.spoken = readyApp.spoken) :=
  ⟨⟨by decide, by decide, by decide⟩,
    detectEmotion_classifies readyApp _ 5 (by decide) (by decide) (by decide)⟩

/-! ## C2: the bounded history -/

theorem sliceLast_length {α : Type} (n : Nat) (l : List α) :
    (sliceLast n l).length = min l.length n := by
  unfold sliceLast
  rw [List.length_drop]
  omega

theorem sliceLast_of_length_le {α : Type} (n : Nat) (l : List α) (h : l.length ≤ n) :
    sliceLast n l = l := by
  unfold sliceLast
  rw [Nat.sub_eq_zero_of_le h, List.drop_zero]

theorem sliceLast_append_singleton {α : Type} (n : Nat) (l : List α) (x : α) :
    sliceLast (n + 1) (sliceLast (n + 1) l ++ [x]) = sliceLast (n + 1) (l ++ [x]) := by
  unfold sliceLast
  by_cases h : l.length ≤ n + 1
  · rw [Nat.sub_eq_zero_of_le h, List.drop_zero]
  · have h1 : (List.drop (l.length - (n + 1)) l).length = n + 1 := by
      rw [List.length_drop]; omega
    have h2 : l.length - (n + 1) ≤ l.length := Nat.sub_le _ _
    rw [List.length_append, List.length_append, h1, List.length_singleton,
      List.drop_append_of_le_length (by omega), List.drop_append_of_le_length (by omega),
      List.drop_drop]
    congr 2
    omega

theorem addToHistory_emotionHistory_eq (s : App) (d : EmotionData) :
    (addToHistory s d).emotionHistory = sliceLast 20 (s.emotionHistory ++ [d]) := by
  rw [addToHistory_emotionHistory]
  split
  · rfl
  · rw [sliceLast_of_length_le]
    simp only [List.length_append, List.length_singleton]
    omega

theorem addAllToHistory_emotionHistory (observations : List EmotionData) (s : App)
    (hempty : s.emotionHistory = []) :
    (addAllToHistory s observations).emotionHistory = sliceLast 20 observations := by
  induction observations using List.reverseRecOn with
  | nil =>
    simp only [addAllToHistory, List.foldl_nil, hempty]
    rfl
  | append_singleton l x ih =>
    have hstep : addAllToHistory s (l ++ [x]) = addToHistory (addAllToHistory s l) x := by
      simp only [addAllToHistory, List.foldl_append, List.foldl_cons, List.foldl_nil]
    rw [hstep, addToHistory_emotionHistory_eq, ih]
    exact sliceLast_append_singleton 19 l x

/-- C2. Starting from an empty history, after the first `k` observations of any
sequence have been appended with `addToHistory`, the history has
`min k 20` entries, never more than 20, and consists of the last `min k 20`
of those `k` observations in their original order. -/
theorem emotionHistory_after_appends (s : App) (observations : List EmotionData) (k : Nat)
    (hempty : s.emotionHistory = []) (hk : k ≤ observations.length) :
    (addAllToHistory s (observations.take k)).emotionHistory.length = min k 20 ∧
    (addAllToHistory s (observations.take k)).emotionHistory.length ≤ 20 ∧
    (addAllToHistory s (observations.take k)).emotionHistory =
      (observations.take k).drop (k - 20) := by
  have hlen : (observations.take k).length = k := by
    rw [List.length_take]; omega
  have h := addAllToHistory_emotionHistory (observations.take k) s hempty
  refine ⟨?_, ?_, ?_⟩
  · rw [h, sliceLast_length, hlen]
  · rw [h, sliceLast_length]; omega
  · rw [h]; unfold sliceLast; rw [hlen]

/-- Witness for C2: 23 appends leave observations 3 to 22 in the history. -/
theorem emotionHistory_after_appends_witness :
    (initial.emotionHistory = [] ∧
      23 ≤ ((List.range 23).map (fun t => EmotionData.mk Emotion.happy 1 t)).length) ∧
    (addAllToHistory initial
      (((List.range 23).map (fun t => EmotionData.mk Emotion.happy 1 t)).take 23)).emotionHistory.length
        = min 23 20 ∧
    (addAllToHistory initial
      (((List.range 23).map (fun t => EmotionData.mk Emotion.happy 1 t)).take 23)).emotionHistory.length
        ≤ 20 ∧
    (addAllToHistory initial
      (((List.range 23).map (fun t => EmotionData.mk Emotion.happy 1 t)).take 23)).emotionHistory =
      (((List.range 23).map (fun t => EmotionData.mk Emotion.happy 1 t)).take 23).drop (23 - 20) :=
  ⟨⟨rfl, by decide⟩,
    emotionHistory_after_appends initial _ 23 rfl (by decide)⟩

/-! ## C3: the most frequent label -/

theorem firstOccurrences_append_of_mem (w : List Emotion) (e : Emotion) (h : e ∈ w) :
    firstOccurrences (w ++ [e]) = firstOccurrences w := by
  unfold firstOccurrences
  rw [List.reverse_append, List.reverse_singleton, List.singleton_append,
    List.dedup_cons_of_mem (List.mem_reverse.2 h)]

theorem firstOccurrences_append_of_not_mem (w : List Emotion) (e : Emotion) (h : e ∉ w) :
    firstOccurrences (w ++ [e]) = firstOccurrences w ++ [e] := by
  unfold firstOccurrences
  rw [List.reverse_append, List.reverse_singleton, List.singleton_append,
    List.dedup_cons_of_not_mem (fun h1 => h (List.mem_reverse.1 h1)), List.reverse_cons]

theorem mem_firstOccurrences (w : List Emotion) (e : Emotion) :
    e ∈ firstOccurrences w ↔ e ∈ w := by
  unfold firstOccurrences
  rw [List.mem_reverse, List.mem_dedup, List.mem_reverse]

theorem nodup_firstOccurrences (w : List Emotion) : (firstOccurrences w).Nodup := by
  unfold firstOccurrences
  exact List.nodup_reverse.2 (List.nodup_dedup _)

/-- Keys appear in the order of their first occurrence in the window. -/
theorem pairwise_firstOccurrences (w : List Emotion) :
    (firstOccurrences w).Pairwise (fun a b => w.indexOf a < w.indexOf b) := by
  induction w using List.reverseRecOn with
  | nil => simp [firstOccurrences]
  | append_singleton w e ih =>
    have hold : (firstOccurrences w).Pairwise
        (fun a b => (w ++ [e]).indexOf a < (w ++ [e]).indexOf b) := by
      refine List.Pairwise.imp_of_mem ?_ ih
      intro a b ha hb hab
      rw [List.indexOf_append_of_mem ((mem_firstOccurrences w a).1 ha),
        List.indexOf_append_of_mem ((mem_firstOccurrences w b).1 hb)]
      exact hab
    by_cases h : e ∈ w
    · rw [firstOccurrences_append_of_mem w e h]
      exact hold
    · rw [firstOccurrences_append_of_not_mem w e h, List.pairwise_append]
      refine ⟨hold, List.pairwise_singleton _ _, ?_⟩
      intro a ha b hb
      rw [List.mem_singleton] at hb
      subst hb
      have haw := (mem_firstOccurrences w a).1 ha
      rw [List.indexOf_append_of_mem haw, List.indexOf_append_of_not_mem h]
      have := List.indexOf_lt_length.2 haw
      omega

theorem bump_map_of_not_mem (g : Emotion → Nat) (e : Emotion) (ks : List Emotion)
    (h : e ∉ ks) :
    bump (ks.map (fun k => (k, g k))) e = ks.map (fun k => (k, g k)) ++ [(e, 1)] := by
  induction ks with
  | nil => rfl
  | cons k ks ih =>
    have hk : k ≠ e := fun hke => h (hke ▸ List.mem_cons_self _ _)
    have he : e ∉ ks := fun hm => h (List.mem_cons_of_mem _ hm)
    simp only [List.map_cons, bump, if_neg hk, ih he, List.cons_append]

theorem bump_map_of_mem (g : Emotion → Nat) (e : Emotion) (ks : List Emotion)
    (hnd : ks.Nodup) (h : e ∈ ks) :
    bump (ks.map (fun k => (k, g k))) e =
      ks.map (fun k => (k, if k = e then g k + 1 else g k)) := by
  induction ks with
  | nil => exact absurd h (List.not_mem_nil _)
  | cons k ks ih =>
    rw [List.nodup_cons] at hnd
    by_cases hk : k = e
    · subst hk
      simp only [List.map_cons, bump, if_true]
      congr 1
      apply List.map_congr_left
      intro a ha
      have : a ≠ k := fun hak => hnd.1 (hak ▸ ha)
      simp [this]
    · have he : e ∈ ks := by
        rcases List.mem_cons.1 h with h1 | h1
        · exact absurd h1.symm hk
        · exact h1
      simp only [List.map_cons, bump, if_neg hk, ih hnd.2 he]

/-- The entries of `emotionCounts`: one per distinct label, in the order of
first occurrence, each with its number of occurrences in the window. -/
theorem emotionCounts_eq (recent : List EmotionData) :
    emotionCounts recent =
      (firstOccurrences (recent.map (fun d => d.emotion))).map
        (fun k => (k, (recent.map (fun d => d.emotion)).count k)) := by
  induction recent using List.reverseRecOn with
  | nil => rfl
  | append_singleton l d ih =>
    have hstep : emotionCounts (l ++ [d]) = bump (emotionCounts l) d.emotion := by
      simp only [emotionCounts, List.foldl_append, List.foldl_cons, List.foldl_nil]
    rw [hstep, ih, List.map_append, List.map_singleton]
    by_cases h : d.emotion ∈ l.map (fun d => d.emotion)
    · rw [firstOccurrences_append_of_mem _ _ h,
        bump_map_of_mem _ _ _ (nodup_firstOccurrences _) ((mem_firstOccurrences _ _).2 h)]
      apply List.map_congr_left
      intro a _
      rw [List.count_append, List.count_singleton]
      by_cases hae : a = d.emotion
      · simp [hae]
      · have : ¬ d.emotion = a := fun h1 => hae h1.symm
        simp [hae, this]
    · rw [firstOccurrences_append_of_not_mem _ _ h,
        bump_map_of_not_mem _ _ _ (fun h1 => h ((mem_firstOccurrences _ _).1 h1)),
        List.map_append, List.map_singleton]
      congr 1
      · apply List.map_congr_left
        intro a ha
        have hne : ¬ d.emotion = a := fun h1 => h (h1 ▸ (mem_firstOccurrences _ _).1 ha)
        rw [List.count_append, List.count_singleton]
        simp [hne]
      · rw [List.count_append, List.count_singleton, List.count_eq_zero_of_not_mem h]
        simp

/-- The entry picked at lines 454-456, described on the window of the last ten labels. -/
theorem mostFrequent_spec (history : List EmotionData) (hne : history ≠ []) :
    ∃ l, (mostFrequent history).map Prod.fst = some l ∧
      l ∈ (sliceLast 10 history).map (fun d => d.emotion) ∧
      (∀ l1, ((sliceLast 10 history).map (fun d => d.emotion)).count l1 ≤
        ((sliceLast 10 history).map (fun d => d.emotion)).count l) ∧
      (∀ l1, l1 ≠ l →
        ((sliceLast 10 history).map (fun d => d.emotion)).count l1 =
          ((sliceLast 10 history).map (fun d => d.emotion)).count l →
        ((sliceLast 10 history).map (fun d => d.emotion)).indexOf l <
          ((sliceLast 10 history).map (fun d => d.emotion)).indexOf l1) := by
  generalize hw : (sliceLast 10 history).map (fun d => d.emotion) = w
  have hwne : w ≠ [] := by
    intro h0
    have hlen : w.length = min history.length 10 := by
      rw [← hw, List.length_map, sliceLast_length]
    rw [h0, List.length_nil] at hlen
    have : 0 < history.length := List.length_pos.2 hne
    omega
  have hcounts : emotionCounts (sliceLast 10 history) =
      (firstOccurrences w).map (fun k => (k, w.count k)) := by
    rw [emotionCounts_eq, hw]
  have hkeys : (emotionCounts (sliceLast 10 history)).map Prod.fst = firstOccurrences w := by
    rw [hcounts, List.map_map]
    exact List.map_id _
  have hmemcounts : ∀ k, k ∈ w → (k, w.count k) ∈ emotionCounts (sliceLast 10 history) := by
    intro k hk
    rw [hcounts]
    exact List.mem_map.2 ⟨k, (mem_firstOccurrences w k).2 hk, rfl⟩
  have hcne : emotionCounts (sliceLast 10 history) ≠ [] := by
    obtain ⟨k, hk⟩ := List.exists_mem_of_ne_nil w hwne
    exact List.ne_nil_of_mem (hmemcounts k hk)
  obtain ⟨pre, e, post, rest, hsplit, hsort, hpre, hpost⟩ :=
    sortDescending_head (emotionCounts (sliceLast 10 history)) hcne
  have he : e ∈ (firstOccurrences w).map (fun k => (k, w.count k)) := by
    rw [← hcounts, hsplit]
    exact List.mem_append_right _ (List.mem_cons_self _ _)
  obtain ⟨l, hl, hle⟩ := List.mem_map.1 he
  have hlw : l ∈ w := (mem_firstOccurrences w l).1 hl
  have he2 : e.2 = w.count l := by rw [← hle]
  have he1 : e.1 = l := by rw [← hle]
  have hpw := pairwise_firstOccurrences w
  rw [← hkeys, hsplit, List.map_append, List.map_cons, List.pairwise_append,
    List.pairwise_cons] at hpw
  refine ⟨l, ?_, hlw, ?_, ?_⟩
  · simp only [mostFrequent, hsort, List.head?_cons, Option.map_some', he1]
  · intro l1
    by_cases h1 : l1 ∈ w
    · have hin := hmemcounts l1 h1
      rw [hsplit] at hin
      rcases List.mem_append.1 hin with h | h
      · have := hpre _ h
        rw [he2] at this
        exact le_of_lt this
      · rcases List.mem_cons.1 h with h | h
        · rw [← he2, ← h]
        · have := hpost _ h
          rw [he2] at this
          exact this
    · rw [List.count_eq_zero_of_not_mem h1]
      exact Nat.zero_le _
  · intro l1 hne1 hcount
    have hpos : 0 < w.count l := List.count_pos_iff.2 hlw
    have h1 : l1 ∈ w := List.count_pos_iff.1 (by rw [hcount]; exact hpos)
    have hin := hmemcounts l1 h1
    rw [hsplit] at hin
    rcases List.mem_append.1 hin with h | h
    · have := hpre _ h
      rw [he2] at this
      simp only at this
      omega
    · rcases List.mem_cons.1 h with h | h
      · exact absurd (by rw [← he1, ← h]) hne1
      · have := hpw.2.1.1 l1 (List.mem_map.2 ⟨_, h, rfl⟩)
        rw [he1] at this
        exact this

theorem updateStats_frequentEmotionName (s : App) (l : Emotion) (hne : s.emotionHistory ≠ [])
    (h : (mostFrequent s.emotionHistory).map Prod.fst = some l) :
    (updateStats s).frequentEmotionName = some l := by
  have hpos : s.emotionHistory.length > 0 := List.length_pos.2 hne
  cases hm : mostFrequent s.emotionHistory with
  | none => rw [hm] at h; exact absurd h (by simp)
  | some entry =>
    rw [hm, Option.map_some', Option.some.injEq] at h
    simp only [updateStats, hpos, if_true, hm, h]

/-- C3. For a non-empty history, the label written by `updateStats` occurs in
the window of the last ten observations (all of them when there are fewer),
no label occurs more often in that window, and every other label that occurs
equally often has its first occurrence in the window later; for the history
happy, happy, sad the label is happy. -/
theorem updateStats_mostFrequent (s : App) :
    (s.emotionHistory ≠ [] →
      ∃ l, (updateStats s).frequentEmotionName = some l ∧
        l ∈ (s.emotionHistory.drop (s.emotionHistory.length - 10)).map (fun d => d.emotion) ∧
        (∀ l1,
          ((s.emotionHistory.drop (s.emotionHistory.length - 10)).map
              (fun d => d.emotion)).count l1 ≤
            ((s.emotionHistory.drop (s.emotionHistory.length - 10)).map
              (fun d => d.emotion)).count l) ∧
        (∀ l1, l1 ≠ l →
          ((s.emotionHistory.drop (s.emotionHistory.length - 10)).map
              (fun d => d.emotion)).count l1 =
            ((s.emotionHistory.drop (s.emotionHistory.length - 10)).map
              (fun d => d.emotion)).count l →
          ((s.emotionHistory.drop (s.emotionHistory.length - 10)).map
              (fun d => d.emotion)).indexOf l <
            ((s.emotionHistory.drop (s.emotionHistory.length - 10)).map
              (fun d => d.emotion)).indexOf l1)) ∧
    (∀ c1 c2 c3 : ℚ, ∀ t1 t2 t3 : Nat,
      s.emotionHistory =
        [⟨Emotion.happy, c1, t1⟩, ⟨Emotion.happy, c2, t2⟩, ⟨Emotion.sad, c3, t3⟩] →
      (updateStats s).frequentEmotionName = some Emotion.happy) := by
  have hgen : s.emotionHistory ≠ [] →
      ∃ l, (updateStats s).frequentEmotionName = some l ∧
        l ∈ (sliceLast 10 s.emotionHistory).map (fun d => d.emotion) ∧
        (∀ l1, ((sliceLast 10 s.emotionHistory).map (fun d => d.emotion)).count l1 ≤
          ((sliceLast 10 s.emotionHistory).map (fun d => d.emotion)).count l) ∧
        (∀ l1, l1 ≠ l →
          ((sliceLast 10 s.emotionHistory).map (fun d => d.emotion)).count l1 =
            ((sliceLast 10 s.emotionHistory).map (fun d => d.emotion)).count l →
          ((sliceLast 10 s.emotionHistory).map (fun d => d.emotion)).indexOf l <
            ((sliceLast 10 s.emotionHistory).map (fun d => d.emotion)).indexOf l1) := by
    intro hne
    obtain ⟨l, h1, h2, h3, h4⟩ := mostFrequent_spec s.emotionHistory hne
    exact ⟨l, updateStats_frequentEmotionName s l hne h1, h2, h3, h4⟩
  refine ⟨hgen, ?_⟩
  intro c1 c2 c3 t1 t2 t3 hhist
  obtain ⟨l, h1, h2, h3, -⟩ := hgen (by rw [hhist]; exact List.cons_ne_nil _ _)
  rw [h1]
  rw [hhist] at h2 h3
  have hw : (sliceLast 10 [(⟨Emotion.happy, c1, t1⟩ : EmotionData), ⟨Emotion.happy, c2, t2⟩,
      ⟨Emotion.sad, c3, t3⟩]).map (fun d => d.emotion) =
      [Emotion.happy, Emotion.happy, Emotion.sad] := rfl
  rw [hw] at h2 h3
  have hmax := h3 Emotion.happy
  cases l <;> first | rfl | (exfalso; revert h2 hmax; decide)

/-- Witness for C3: sad and happy both occur twice in the window, sad occurs first. -/
theorem updateStats_mostFrequent_witness :
    ({ initial with emotionHistory :=
        [⟨Emotion.sad, 1, 0⟩, ⟨Emotion.happy, 1, 1⟩, ⟨Emotion.happy, 1, 2⟩,
          ⟨Emotion.sad, 1, 3⟩] } : App).emotionHistory ≠ [] ∧
    (updateStats { initial with emotionHistory :=
      [⟨Emotion.sad, 1, 0⟩, ⟨Emotion.happy, 1, 1⟩, ⟨Emotion.happy, 1, 2⟩,
        ⟨Emotion.sad, 1, 3⟩] }).frequentEmotionName = some Emotion.sad ∧
    ∃ l, (updateStats { initial with emotionHistory :=
        [⟨Emotion.sad, 1, 0⟩, ⟨Emotion.happy, 1, 1⟩, ⟨Emotion.happy, 1, 2⟩,
          ⟨Emotion.sad, 1, 3⟩] }).frequentEmotionName = some l ∧
      ∀ l1, l1 ≠ l →
        [Emotion.sad, Emotion.happy, Emotion.happy, Emotion.sad].count l1 =
          [Emotion.sad, Emotion.happy, Emotion.happy, Emotion.sad].count l →
        [Emotion.sad, Emotion.happy, Emotion.happy, Emotion.sad].indexOf l <
          [Emotion.sad, Emotion.happy, Emotion.happy, Emotion.sad].indexOf l1 :=
  ⟨by decide, by decide,
    match (updateStats_mostFrequent { initial with emotionHistory :=
      [⟨Emotion.sad, 1, 0⟩, ⟨Emotion.happy, 1, 1⟩, ⟨Emotion.happy, 1, 2⟩,
        ⟨Emotion.sad, 1, 3⟩] }).1 (by decide) with
    | ⟨l, h1, _, _, h4⟩ => ⟨l, h1, h4⟩⟩

/-! ## C4: the announcement debouncer -/

theorem speakEmotion_lastSpokenEmotion (s : App) (e : Emotion) :
    (speakEmotion s e).lastSpokenEmotion = some e := by
  unfold speakEmotion
  split
  · assumption
  · rfl

theorem speakEmotion_spoken (s : App) (e : Emotion) :
    (speakEmotion s e).spoken =
      if s.lastSpokenEmotion = some e then s.spoken else s.spoken ++ [e] := by
  unfold speakEmotion
  split <;> rfl

theorem speakEmotion_spoken_ne_iff (s : App) (e : Emotion) :
    (speakEmotion s e).spoken ≠ s.spoken ↔ s.lastSpokenEmotion ≠ some e := by
  rw [speakEmotion_spoken]
  split
  · simp_all
  · simp_all

theorem narrationFlags_getElem? (labels : List Emotion) :
    ∀ (s : App) (i : Nat), i < labels.length →
      ((narrationFlags s labels)[i]? = some true ↔
        if i = 0 then s.lastSpokenEmotion ≠ labels[0]? else labels[i]? ≠ labels[i - 1]?) := by
  induction labels with
  | nil => intro s i hi; exact absurd hi (Nat.not_lt_zero _)
  | cons e es ih =>
    intro s i hi
    cases i with
    | zero =>
      simp only [narrationFlags, List.getElem?_cons_zero, Option.some.injEq, decide_eq_true_eq,
        if_true]
      exact speakEmotion_spoken_ne_iff s e
    | succ j =>
      have hj : j < es.length := by simpa using hi
      have := ih (speakEmotion s e) j hj
      simp only [narrationFlags, List.getElem?_cons_succ, Nat.succ_ne_zero, if_false,
        Nat.add_sub_cancel]
      rw [this, speakEmotion_lastSpokenEmotion]
      cases j with
      | zero =>
        simp only [if_true, List.getElem?_cons_zero]
        exact ne_comm
      | succ k =>
        simp only [Nat.succ_ne_zero, if_false, Nat.add_sub_cancel, List.getElem?_cons_succ]

/-- C4. Starting with `lastSpokenEmotion = null`, when the labels of a sequence
are passed in order to `speakEmotion`, the call for index `i` narrates exactly
when `i = 0` or the label differs from the one at index `i - 1`; for happy,
happy, sad, sad, happy the calls at indices 0, 2 and 4 narrate and the queue
receives three utterances. -/
theorem speakEmotion_debounce (s : App) (hnull : s.lastSpokenEmotion = none) :
    (∀ (labels : List Emotion) (i : Nat), i < labels.length →
      ((narrationFlags s labels)[i]? = some true ↔
        (i = 0 ∨ labels[i]? ≠ labels[i - 1]?))) ∧
    narrationFlags s
      [Emotion.happy, Emotion.happy, Emotion.sad, Emotion.sad, Emotion.happy] =
      [true, false, true, false, true] ∧
    (speakAll s
      [Emotion.happy, Emotion.happy, Emotion.sad, Emotion.sad, Emotion.happy]).spoken =
      s.spoken ++ [Emotion.happy, Emotion.sad, Emotion.happy] := by
  refine ⟨?_, ?_, ?_⟩
  · intro labels i hi
    rw [narrationFlags_getElem? labels s i hi]
    by_cases h0 : i = 0
    · subst h0
      have : labels[0]? ≠ none := by
        rw [ne_eq, List.getElem?_eq_none_iff]; omega
      simp only [if_true, true_or, iff_true, hnull]
      exact fun h => this h.symm
    · simp only [h0, if_false, false_or]
  · simp [narrationFlags, speakEmotion_spoken_ne_iff, speakEmotion_lastSpokenEmotion, hnull]
  · simp [speakAll, speakEmotion_spoken, speakEmotion_lastSpokenEmotion, hnull]

/-- Witness for C4: the constructor state. -/
theorem speakEmotion_debounce_witness :
    initial.lastSpokenEmotion = none ∧
    narrationFlags initial
      [Emotion.happy, Emotion.happy, Emotion.sad, Emotion.sad, Emotion.happy] =
      [true, false, true, false, true] ∧
    (speakAll initial
      [Emotion.happy, Emotion.happy, Emotion.sad, Emotion.sad, Emotion.happy]).spoken =
      initial.spoken ++ [Emotion.happy, Emotion.sad, Emotion.happy] :=
  ⟨rfl, (speakEmotion_debounce initial rfl).2⟩

/-! ## Polls and callbacks: totality and frame -/

theorem detectEmotionTry_frame (s : App) (p : Poll) :
    (∀ s1, detectEmotionTry s p = Except.ok s1 → PollFrame s s1) ∧
    (∀ message s1, detectEmotionTry s p = Except.error (message, s1) → PollFrame s s1) := by
  obtain ⟨r, det, now⟩ := p
  cases det with
  | throws message =>
    constructor
    · intro s1 h; simp [detectEmotionTry] at h
    · intro m s1 h
      simp only [detectEmotionTry, Except.error.injEq, Prod.mk.injEq] at h
      rw [← h.2]
      exact ⟨rfl, rfl, rfl, rfl, rfl, le_refl _, Or.inl rfl⟩
  | noFace =>
    constructor
    · intro s1 h
      simp only [detectEmotionTry, Except.ok.injEq] at h
      rw [← h]
      exact ⟨rfl, rfl, rfl, rfl, rfl, Nat.le_succ _, Or.inl rfl⟩
    · intro m s1 h; simp [detectEmotionTry] at h
  | face D =>
    cases hsort : sortDescending D with
    | nil =>
      constructor
      · intro s1 h; simp [detectEmotionTry, hsort] at h
      · intro m s1 h
        simp only [detectEmotionTry, hsort, Except.error.injEq, Prod.mk.injEq] at h
        rw [← h.2]
        exact ⟨rfl, rfl, rfl, rfl, rfl, le_refl _, Or.inl rfl⟩
    | cons e rest =>
      rw [detectEmotionTry_face s r D now e rest hsort]
      constructor
      · intro s1 h
        split at h
        · simp only [Except.ok.injEq] at h
          rw [← h]
          obtain ⟨-, -, -, h4, h5, h6, -, h8, h9, h10, -⟩ := speakEmotion_fields
            (addToHistory (updateCurrentEmotion
              { showFaceStatus { s with faceDetected := true } with
                currentEmotion := some ⟨e.1, e.2, now⟩ } (some ⟨e.1, e.2, now⟩))
              ⟨e.1, e.2, now⟩) e.1
          obtain ⟨-, -, -, -, g5, g6, g7, -, g9, g10, g11, -⟩ := addToHistory_fields
            (updateCurrentEmotion
              { showFaceStatus { s with faceDetected := true } with
                currentEmotion := some ⟨e.1, e.2, now⟩ } (some ⟨e.1, e.2, now⟩))
            ⟨e.1, e.2, now⟩
          refine ⟨?_, ?_, ?_, ?_, ?_, ?_, Or.inr ⟨e.1, speakEmotion_lastSpokenEmotion _ _⟩⟩
          · rw [h4, g5]; rfl
          · rw [h5, g6]; rfl
          · rw [h6, g7]; rfl
          · rw [h8, g9]; rfl
          · rw [h9, g10]; rfl
          · rw [h10, g11]; exact le_refl _
        · simp only [Except.ok.injEq] at h
          rw [← h]
          exact ⟨rfl, rfl, rfl, rfl, rfl, le_refl _, Or.inl rfl⟩
      · intro m s1 h
        split at h <;> simp at h

/-- The resumption always completes normally, and it touches neither the
polling flag, nor the polling timer, nor the readiness flags. -/
theorem detectEmotionResume_ok (s : App) (p : Poll) :
    ∃ s1, detectEmotionResume s p = Except.ok s1 ∧ PollFrame s s1 := by
  unfold detectEmotionResume
  cases htry : detectEmotionTry s p with
  | ok s1 => exact ⟨s1, rfl, (detectEmotionTry_frame s p).1 s1 htry⟩
  | error err =>
    obtain ⟨m, s1⟩ := err
    exact ⟨_, rfl, (detectEmotionTry_frame s p).2 m s1 htry⟩

/-- `detectEmotion` always completes normally, and it touches neither the
polling flag, nor the polling timer, nor the readiness flags. -/
theorem detectEmotion_ok (s : App) (p : Poll) :
    ∃ s1, detectEmotion s p = Except.ok s1 ∧ PollFrame s s1 := by
  have hrefl : PollFrame s s := ⟨rfl, rfl, rfl, rfl, rfl, le_refl _, Or.inl rfl⟩
  unfold detectEmotion
  split
  · exact ⟨s, rfl, hrefl⟩
  · split
    · exact ⟨s, rfl, hrefl⟩
    · exact detectEmotionResume_ok s p

theorem afterResume_eq (s : App) (p : Poll) (s1 : App)
    (h : detectEmotionResume s p = Except.ok s1) : afterResume s p = s1 := by
  simp only [afterResume, h]

theorem afterPoll_eq (s : App) (p : Poll) (s1 : App) (h : detectEmotion s p = Except.ok s1) :
    afterPoll s p = s1 := by
  simp only [afterPoll, h]

theorem graceClear_eq (s : App) :
    graceClear s =
      if s.faceDetected then s else { s with emotionPanel := Panel.noFaceDetected } := by
  unfold graceClear updateCurrentEmotion
  cases h : s.faceDetected <;> simp [h]

theorem foldl_graceClear (fired : List Nat) : ∀ s : App,
    fired.foldl (fun acc _ => graceClear acc) s =
      if s.faceDetected = true ∨ fired = [] then s
      else { s with emotionPanel := Panel.noFaceDetected } := by
  induction fired with
  | nil => intro s; simp
  | cons d ds ih =>
    intro s
    rw [List.foldl_cons, ih, graceClear_eq]
    cases hf : s.faceDetected
    · by_cases hds : ds = [] <;> simp [hds, hf]
    · simp [hf]

/-- Firing pending callbacks only removes them from the pending list and, when
no face is present, resets the panel. -/
theorem fireDue_eq (s : App) (t : Nat) :
    fireDue s t =
      if s.faceDetected = true ∨ s.timeouts.filter (fun due => due ≤ t) = [] then
        { s with timeouts := s.timeouts.filter (fun due => ¬ due ≤ t) }
      else
        { s with timeouts := s.timeouts.filter (fun due => ¬ due ≤ t),
                 emotionPanel := Panel.noFaceDetected } := by
  unfold fireDue
  rw [foldl_graceClear]

/-! ## C7: stopping the camera -/

theorem stopCamera_fields (s : App) :
    (stopCamera s).isCameraOn = false ∧
    (stopCamera s).isDetecting = false ∧
    (stopCamera s).faceDetected = false ∧
    (stopCamera s).currentEmotion = none ∧
    (stopCamera s).emotionPanel = Panel.noFaceDetected ∧
    (stopCamera s).emotionHistory = s.emotionHistory ∧
    (stopCamera s).lastSpokenEmotion = s.lastSpokenEmotion ∧
    (stopCamera s).spoken = s.spoken ∧
    (stopCamera s).isModelLoaded = s.isModelLoaded ∧
    (stopCamera s).nextTimerId = s.nextTimerId := by
  unfold stopCamera
  dsimp only
  split <;> simp [hideFaceStatus, updateCurrentEmotion, clearInterval]

theorem stopCamera_timers (s : App) (hinv : TimerInv s) :
    (stopCamera s).detectionInterval = none ∧ (stopCamera s).intervals = [] := by
  obtain ⟨-, h | h⟩ := hinv
  · obtain ⟨-, h2, h3⟩ := h
    simp [stopCamera, hideFaceStatus, updateCurrentEmotion, h2, h3]
  · obtain ⟨-, id, hpos, h2, h3⟩ := h
    obtain ⟨n, rfl⟩ : ∃ n, id = n + 1 := ⟨id - 1, by omega⟩
    simp [stopCamera, hideFaceStatus, updateCurrentEmotion, clearInterval, h2, h3]

theorem timerInv_stopCamera (s : App) (hinv : TimerInv s) : TimerInv (stopCamera s) := by
  obtain ⟨h1, h2⟩ := stopCamera_timers s hinv
  obtain ⟨-, g2, -, -, -, -, -, -, -, g10⟩ := stopCamera_fields s
  exact ⟨by rw [g10]; exact hinv.1, Or.inl ⟨g2, h1, h2⟩⟩

theorem timerInv_startDetection (s : App) (hinv : TimerInv s) :
    TimerInv (startDetection s) := by
  unfold startDetection
  split
  · exact hinv
  · rename_i hdet
    obtain ⟨hpos, h | h⟩ := hinv
    · exact ⟨Nat.succ_pos _, Or.inr ⟨rfl, s.nextTimerId, hpos, rfl, by simp [h.2.2]⟩⟩
    · exact absurd h.1 hdet

theorem timerInv_of_pollFrame (s s1 : App) (hframe : PollFrame s s1) (hinv : TimerInv s) :
    TimerInv s1 := by
  obtain ⟨f1, f2, f3, -, -, f6, -⟩ := hframe
  obtain ⟨hpos, h⟩ := hinv
  refine ⟨lt_of_lt_of_le hpos f6, ?_⟩
  rw [f1, f2, f3]
  exact h

theorem timerInv_step (s : App) (e : Event) (hinv : TimerInv s) : TimerInv (step s e) := by
  cases e with
  | modelsLoaded => exact hinv
  | cameraClick granted =>
    show TimerInv (onCameraClick s granted)
    unfold onCameraClick
    split
    · exact timerInv_stopCamera s hinv
    · cases granted with
      | none => exact hinv
      | some media => exact hinv
  | cameraGranted media => exact hinv
  | loadedMetadata => exact timerInv_startDetection s hinv
  | poll p =>
    obtain ⟨s1, hok, hframe⟩ := detectEmotion_ok s p
    show TimerInv (afterPoll s p)
    rw [afterPoll_eq s p s1 hok]
    exact timerInv_of_pollFrame s s1 hframe hinv
  | pollCompletes p =>
    obtain ⟨s1, hok, hframe⟩ := detectEmotionResume_ok s p
    show TimerInv (afterResume s p)
    rw [afterResume_eq s p s1 hok]
    exact timerInv_of_pollFrame s s1 hframe hinv
  | clock t =>
    show TimerInv (fireDue s t)
    rw [fireDue_eq]
    split <;> exact hinv

/-- Every reachable state keeps the timer bookkeeping consistent. -/
theorem Reachable.timerInv {s : App} (h : Reachable s) : TimerInv s := by
  induction h with
  | start => exact ⟨by decide, Or.inl ⟨rfl, rfl, rfl⟩⟩
  | next s e _ ih => exact timerInv_step s e ih

theorem Reachable.run {s : App} (h : Reachable s) (events : List Event) :
    Reachable (run s events) := by
  induction events generalizing s with
  | nil => exact h
  | cons e es ih => exact ih (Reachable.next s e h)

theorem reachable_readyApp : Reachable readyApp :=
  Reachable.run Reachable.start
    [Event.modelsLoaded, Event.cameraClick (some 7), Event.loadedMetadata]

/-- C7. In every state, also one in which detection was never started or one
left by a detection that settled after the camera was stopped, `stopCamera`
ends with `isDetecting = false`, `faceDetected = false`, `currentEmotion = null`
and the panel reset, and it leaves the emotion history unchanged. Whenever the
timer bookkeeping is consistent, which it is in every reachable state, no
interval timer is armed or recorded afterwards. -/
theorem stopCamera_resets (s : App) :
    (stopCamera s).isDetecting = false ∧
    (stopCamera s).faceDetected = false ∧
    (stopCamera s).currentEmotion = none ∧
    (stopCamera s).emotionPanel = Panel.noFaceDetected ∧
    (stopCamera s).emotionHistory = s.emotionHistory ∧
    (TimerInv s → (stopCamera s).intervals = [] ∧ (stopCamera s).detectionInterval = none) ∧
    (Reachable s → TimerInv s) := by
  obtain ⟨-, g2, g3, g4, g5, g6, -⟩ := stopCamera_fields s
  refine ⟨g2, g3, g4, g5, g6, ?_, Reachable.timerInv⟩
  intro hinv
  obtain ⟨h1, h2⟩ := stopCamera_timers s hinv
  exact ⟨h2, h1⟩

/-- Witness for C7: the camera was stopped while a detection was in flight and
the detection has settled since (camera off, `faceDetected` true, one
observation in the history); and a running detection, whose timer is cleared. -/
theorem stopCamera_resets_witness :
    (stoppedInFlight.isCameraOn = false ∧ stoppedInFlight.faceDetected = true ∧
      Reachable stoppedInFlight ∧ TimerInv stoppedInFlight) ∧
    ((stopCamera stoppedInFlight).faceDetected = false ∧
      (stopCamera stoppedInFlight).currentEmotion = none ∧
      (stopCamera stoppedInFlight).emotionHistory = [⟨Emotion.happy, mkRat 9 10, 5⟩] ∧
      (stopCamera stoppedInFlight).intervals = [] ∧
      (stopCamera stoppedInFlight).detectionInterval = none) ∧
    (readyApp.intervals = [1] ∧ TimerInv readyApp ∧
      (stopCamera readyApp).intervals = [] ∧
      (stopCamera readyApp).detectionInterval = none) :=
  ⟨⟨by decide, by decide, Reachable.run reachable_readyApp _,
      (stopCamera_resets stoppedInFlight).2.2.2.2.2.2 (Reachable.run reachable_readyApp _)⟩,
    ⟨(stopCamera_resets stoppedInFlight).2.1,
      (stopCamera_resets stoppedInFlight).2.2.1,
      (stopCamera_resets stoppedInFlight).2.2.2.2.1.trans (by decide),
      ((stopCamera_resets stoppedInFlight).2.2.2.2.2.1
        ((stopCamera_resets stoppedInFlight).2.2.2.2.2.2
          (Reachable.run reachable_readyApp _))).1,
      ((stopCamera_resets stoppedInFlight).2.2.2.2.2.1
        ((stopCamera_resets stoppedInFlight).2.2.2.2.2.2
          (Reachable.run reachable_readyApp _))).2⟩,
    ⟨by decide, (stopCamera_resets readyApp).2.2.2.2.2.2 reachable_readyApp,
      ((stopCamera_resets readyApp).2.2.2.2.2.1
        ((stopCamera_resets readyApp).2.2.2.2.2.2 reachable_readyApp)).1,
      ((stopCamera_resets readyApp).2.2.2.2.2.1
        ((stopCamera_resets readyApp).2.2.2.2.2.2 reachable_readyApp)).2⟩⟩

/-! ## C5: starting detection -/

/-- C5 as stated fails: with the camera off (stopped before `loadedmetadata`
arrived), the `loadedmetadata` listener still arms a polling timer and sets
`isDetecting`; the same happens in the constructor state, where the models are
not loaded either. -/
theorem startDetection_not_gated :
    stoppedEarly.isCameraOn = false ∧ stoppedEarly.isDetecting = false ∧
    (onLoadedMetadata stoppedEarly).isDetecting = true ∧
    (onLoadedMetadata stoppedEarly).detectionInterval = some 1 ∧
    (onLoadedMetadata stoppedEarly).intervals = [1] ∧
    initial.isCameraOn = false ∧ initial.isModelLoaded = false ∧
    (startDetection initial).isDetecting = true ∧
    (startDetection initial).intervals = [1] := by
  decide

/-- C5, amended. `startDetection` is a no-op exactly in the states that are
already detecting; in every other state, whether or not the camera is on and
the models are loaded, it sets `isDetecting` and arms a fresh polling timer.
Readiness is checked by each poll instead: while the camera is off or the
models are not loaded, `detectEmotion` returns without changing the state. -/
theorem startDetection_guard (s : App) :
    (s.isDetecting = true → startDetection s = s) ∧
    (s.isDetecting = false →
      (startDetection s).isDetecting = true ∧
      (startDetection s).detectionInterval = some s.nextTimerId ∧
      (startDetection s).intervals = s.intervals ++ [s.nextTimerId]) ∧
    (s.isCameraOn = false ∨ s.isModelLoaded = false →
      ∀ p, detectEmotion (startDetection s) p = Except.ok (startDetection s)) := by
  refine ⟨?_, ?_, ?_⟩
  · intro h
    simp [startDetection, h]
  · intro h
    simp [startDetection, h]
  · intro h p
    have hcam : (startDetection s).isCameraOn = s.isCameraOn := by
      unfold startDetection; split <;> rfl
    have hmodel : (startDetection s).isModelLoaded = s.isModelLoaded := by
      unfold startDetection; split <;> rfl
    unfold detectEmotion
    rw [hcam, hmodel]
    rcases h with h | h <;> simp [h]

/-- Witness for C5 (amended): the constructor state, camera off, models not loaded. -/
theorem startDetection_guard_witness :
    (initial.isDetecting = false ∧ (initial.isCameraOn = false ∨ initial.isModelLoaded = false)) ∧
    ((startDetection initial).isDetecting = true ∧
      (startDetection initial).detectionInterval = some initial.nextTimerId ∧
      (startDetection initial).intervals = initial.intervals ++ [initial.nextTimerId]) ∧
    (∀ p, detectEmotion (startDetection initial) p = Except.ok (startDetection initial)) ∧
    startDetection (startDetection initial) = startDetection initial :=
  ⟨⟨rfl, Or.inl rfl⟩, (startDetection_guard initial).2.1 rfl,
    (startDetection_guard initial).2.2 (Or.inl rfl),
    (startDetection_guard (startDetection initial)).1 rfl⟩

/-! ## C9, C8, C10: rejected polls, camera restarts, failing detections -/

theorem detectEmotionResume_of_try_ok (s : App) (p : Poll) (s1 : App)
    (htry : detectEmotionTry s p = Except.ok s1) : detectEmotionResume s p = Except.ok s1 := by
  simp only [detectEmotionResume, htry]

theorem afterPoll_eq_afterResume (s : App) (p : Poll) (hcam : s.isCameraOn = true)
    (hmodel : s.isModelLoaded = true) (hready : p.readyState = 4) :
    afterPoll s p = afterResume s p := by
  simp [afterPoll, afterResume, detectEmotion, hcam, hmodel, hready]

/-- A detection that settles with an accepted label, in whatever state the page is then. -/
theorem afterResume_accepted (s : App) (r : Nat) (D : List (Emotion × ℚ)) (now : Nat)
    (l : Emotion) (c : ℚ)
    (hhead : (sortDescending D).head? = some (l, c)) (hacc : 1 / 10 < c) :
    (afterResume s ⟨r, Detection.face D, now⟩).lastSpokenEmotion = some l ∧
    (afterResume s ⟨r, Detection.face D, now⟩).spoken =
      (if s.lastSpokenEmotion = some l then s.spoken else s.spoken ++ [l]) ∧
    (afterResume s ⟨r, Detection.face D, now⟩).currentEmotion = some ⟨l, c, now⟩ ∧
    (afterResume s ⟨r, Detection.face D, now⟩).isCameraOn = s.isCameraOn ∧
    (afterResume s ⟨r, Detection.face D, now⟩).isModelLoaded = s.isModelLoaded := by
  cases hsort : sortDescending D with
  | nil => rw [hsort] at hhead; simp at hhead
  | cons e rest =>
    rw [hsort, List.head?_cons, Option.some.injEq] at hhead
    subst hhead
    have htry := detectEmotionTry_face s r D now (l, c) rest hsort
    rw [if_pos (by rw [acceptanceThreshold_eq]; exact hacc)] at htry
    rw [afterResume_eq s _ _ (detectEmotionResume_of_try_ok s _ _ htry)]
    obtain ⟨h1, -, -, -, -, -, -, h8, h9, -⟩ := speakEmotion_fields (addToHistory
      (updateCurrentEmotion
        { showFaceStatus { s with faceDetected := true } with
          currentEmotion := some ⟨l, c, now⟩ } (some ⟨l, c, now⟩)) ⟨l, c, now⟩) l
    obtain ⟨g1, -, g3, g4, -, -, -, -, g9, g10, -⟩ := addToHistory_fields
      (updateCurrentEmotion
        { showFaceStatus { s with faceDetected := true } with
          currentEmotion := some ⟨l, c, now⟩ } (some ⟨l, c, now⟩)) ⟨l, c, now⟩
    refine ⟨speakEmotion_lastSpokenEmotion _ _, ?_, ?_, ?_, ?_⟩
    · rw [speakEmotion_spoken, g3, g4]; rfl
    · rw [h1, g1]; rfl
    · rw [h8, g9]; rfl
    · rw [h9, g10]; rfl

theorem afterPoll_accepted (s : App) (D : List (Emotion × ℚ)) (now : Nat) (l : Emotion)
    (c : ℚ) (hcam : s.isCameraOn = true) (hmodel : s.isModelLoaded = true)
    (hhead : (sortDescending D).head? = some (l, c)) (hacc : 1 / 10 < c) :
    (afterPoll s ⟨4, Detection.face D, now⟩).lastSpokenEmotion = some l ∧
    (afterPoll s ⟨4, Detection.face D, now⟩).spoken =
      (if s.lastSpokenEmotion = some l then s.spoken else s.spoken ++ [l]) ∧
    (afterPoll s ⟨4, Detection.face D, now⟩).currentEmotion = some ⟨l, c, now⟩ ∧
    (afterPoll s ⟨4, Detection.face D, now⟩).isCameraOn = true ∧
    (afterPoll s ⟨4, Detection.face D, now⟩).isModelLoaded = true := by
  rw [afterPoll_eq_afterResume s _ hcam hmodel rfl]
  obtain ⟨h1, h2, h3, h4, h5⟩ := afterResume_accepted s 4 D now l c hhead hacc
  exact ⟨h1, h2, h3, h4.trans hcam, h5.trans hmodel⟩

theorem detectEmotionResume_rejected (s : App) (r now : Nat) (D : List (Emotion × ℚ))
    (hrej : ∀ x ∈ D, x.2 ≤ 1 / 10) :
    ∃ s1, detectEmotionResume s ⟨r, Detection.face D, now⟩ = Except.ok s1 ∧
      s1.emotionHistory = s.emotionHistory ∧
      s1.lastSpokenEmotion = s.lastSpokenEmotion ∧
      s1.currentEmotion = s.currentEmotion ∧
      s1.spoken = s.spoken ∧
      s1.isCameraOn = s.isCameraOn ∧
      s1.isModelLoaded = s.isModelLoaded := by
  unfold detectEmotionResume
  cases hsort : sortDescending D with
  | nil =>
    simp only [detectEmotionTry, hsort]
    exact ⟨_, rfl, rfl, rfl, rfl, rfl, rfl, rfl⟩
  | cons e rest =>
    have hne : D ≠ [] := by
      intro h0
      rw [h0] at hsort
      simp [sortDescending] at hsort
    obtain ⟨pre, e1, post, rest1, hsplit, hsort1, -, -⟩ := sortDescending_head D hne
    rw [hsort, List.cons.injEq] at hsort1
    have hmem : e ∈ D := by
      rw [hsplit, hsort1.1]
      exact List.mem_append_right _ (List.mem_cons_self _ _)
    have hle := hrej e hmem
    rw [detectEmotionTry_face s r D now e rest hsort,
      if_neg (by rw [acceptanceThreshold_eq]; exact not_lt_of_le hle)]
    exact ⟨_, rfl, rfl, rfl, rfl, rfl, rfl, rfl⟩

theorem detectEmotion_rejected (s : App) (r now : Nat) (D : List (Emotion × ℚ))
    (hrej : ∀ x ∈ D, x.2 ≤ 1 / 10) :
    ∃ s1, detectEmotion s ⟨r, Detection.face D, now⟩ = Except.ok s1 ∧
      s1.emotionHistory = s.emotionHistory ∧
      s1.lastSpokenEmotion = s.lastSpokenEmotion ∧
      s1.currentEmotion = s.currentEmotion ∧
      s1.spoken = s.spoken ∧
      s1.isCameraOn = s.isCameraOn ∧
      s1.isModelLoaded = s.isModelLoaded := by
  unfold detectEmotion
  split
  · exact ⟨s, rfl, rfl, rfl, rfl, rfl, rfl, rfl⟩
  · split
    · exact ⟨s, rfl, rfl, rfl, rfl, rfl, rfl, rfl⟩
    · exact detectEmotionResume_rejected s r now D hrej

/-- C9. A poll whose result is rejected (every score at most 0.1) leaves the
emotion history, `lastSpokenEmotion`, the current emotion and the speech queue
unchanged; hence when a label is accepted, then a result is rejected, then the
same label is accepted again, the third poll narrates nothing. -/
theorem rejected_poll_keeps_state (s : App) :
    (∀ (r now : Nat) (D : List (Emotion × ℚ)), (∀ x ∈ D, x.2 ≤ 1 / 10) →
      ∃ s1, detectEmotion s ⟨r, Detection.face D, now⟩ = Except.ok s1 ∧
        s1.emotionHistory = s.emotionHistory ∧
        s1.lastSpokenEmotion = s.lastSpokenEmotion ∧
        s1.currentEmotion = s.currentEmotion ∧
        s1.spoken = s.spoken) ∧
    (∀ (l : Emotion) (D1 D2 D3 : List (Emotion × ℚ)) (c1 c3 : ℚ) (t1 t2 t3 : Nat),
      s.isCameraOn = true → s.isModelLoaded = true →
      (sortDescending D1).head? = some (l, c1) → 1 / 10 < c1 →
      (∀ x ∈ D2, x.2 ≤ 1 / 10) →
      (sortDescending D3).head? = some (l, c3) → 1 / 10 < c3 →
      (afterPoll (afterPoll (afterPoll s ⟨4, Detection.face D1, t1⟩)
          ⟨4, Detection.face D2, t2⟩) ⟨4, Detection.face D3, t3⟩).spoken =
        (afterPoll s ⟨4, Detection.face D1, t1⟩).spoken ∧
      (afterPoll (afterPoll (afterPoll s ⟨4, Detection.face D1, t1⟩)
          ⟨4, Detection.face D2, t2⟩) ⟨4, Detection.face D3, t3⟩).currentEmotion =
        some ⟨l, c3, t3⟩) := by
  constructor
  · intro r now D hrej
    obtain ⟨s1, h, h1, h2, h3, h4, -⟩ := detectEmotion_rejected s r now D hrej
    exact ⟨s1, h, h1, h2, h3, h4⟩
  · intro l D1 D2 D3 c1 c3 t1 t2 t3 hcam hmodel hD1 hc1 hD2 hD3 hc3
    obtain ⟨a1, -, -, a4, a5⟩ := afterPoll_accepted s D1 t1 l c1 hcam hmodel hD1 hc1
    obtain ⟨s2, h, -, b2, -, b4, b5, b6⟩ :=
      detectEmotion_rejected (afterPoll s ⟨4, Detection.face D1, t1⟩) 4 t2 D2 hD2
    rw [afterPoll_eq _ _ s2 h]
    obtain ⟨-, d2, d3, -⟩ := afterPoll_accepted s2 D3 t3 l c3 (by rw [b5, a4]) (by rw [b6, a5])
      hD3 hc3
    rw [d2, d3, if_pos (by rw [b2, a1]), b4]
    exact ⟨rfl, rfl⟩

/-- Witness for C9: happy accepted, a rejected result, happy accepted again. -/
theorem rejected_poll_keeps_state_witness :
    (readyApp.isCameraOn = true ∧ readyApp.isModelLoaded = true ∧
      (sortDescending [(Emotion.happy, mkRat 9 10), (Emotion.sad, mkRat 1 20)]).head? =
        some (Emotion.happy, mkRat 9 10) ∧
      (1 : ℚ) / 10 < mkRat 9 10 ∧
      (∀ x ∈ [(Emotion.neutral, mkRat 1 20), (Emotion.sad, mkRat 1 10)], x.2 ≤ (1 : ℚ) / 10) ∧
      (sortDescending [(Emotion.sad, mkRat 1 5), (Emotion.happy, mkRat 3 5)]).head? =
        some (Emotion.happy, mkRat 3 5) ∧
      (1 : ℚ) / 10 < mkRat 3 5) ∧
    (afterPoll (afterPoll (afterPoll readyApp
        ⟨4, Detection.face [(Emotion.happy, mkRat 9 10), (Emotion.sad, mkRat 1 20)], 0⟩)
        ⟨4, Detection.face [(Emotion.neutral, mkRat 1 20), (Emotion.sad, mkRat 1 10)], 200⟩)
        ⟨4, Detection.face [(Emotion.sad, mkRat 1 5), (Emotion.happy, mkRat 3 5)], 400⟩).spoken =
      (afterPoll readyApp
        ⟨4, Detection.face [(Emotion.happy, mkRat 9 10), (Emotion.sad, mkRat 1 20)], 0⟩).spoken ∧
    (afterPoll readyApp
        ⟨4, Detection.face [(Emotion.happy, mkRat 9 10), (Emotion.sad, mkRat 1 20)], 0⟩).spoken =
      [Emotion.happy] :=
  ⟨⟨by decide, by decide, by decide, by norm_num [Rat.mkRat_eq_div], by
      intro x hx
      simp only [List.mem_cons, List.mem_singleton, List.not_mem_nil, or_false] at hx
      rcases hx with rfl | rfl <;> norm_num [Rat.mkRat_eq_div],
      by decide, by norm_num [Rat.mkRat_eq_div]⟩,
    ((rejected_poll_keeps_state readyApp).2 Emotion.happy _ _ _ (mkRat 9 10) (mkRat 3 5) 0 200 400
      (by decide)
      (by decide) (by decide) (by norm_num [Rat.mkRat_eq_div]) (by
        intro x hx
        simp only [List.mem_cons, List.mem_singleton, List.not_mem_nil, or_false] at hx
        rcases hx with rfl | rfl <;> norm_num [Rat.mkRat_eq_div])
      (by decide) (by norm_num [Rat.mkRat_eq_div])).1,
    by decide⟩

/-! ## C8: the last spoken label across a camera stop -/

/-- C8 as stated fails: after happy was narrated, `stopCamera` leaves
`lastSpokenEmotion` at happy, and after the restart an accepted happy is put
on display without being narrated. -/
theorem stopCamera_keeps_lastSpokenEmotion :
    narratedHappy.spoken = [Emotion.happy] ∧
    (stopCamera narratedHappy).lastSpokenEmotion = some Emotion.happy ∧
    (stopCamera narratedHappy).lastSpokenEmotion ≠ none ∧
    restarted.isCameraOn = true ∧ restarted.isDetecting = true ∧
    (afterPoll restarted ⟨4, Detection.face [(Emotion.happy, mkRat 4 5)], 900⟩).currentEmotion =
      some ⟨Emotion.happy, mkRat 4 5, 900⟩ ∧
    (afterPoll restarted ⟨4, Detection.face [(Emotion.happy, mkRat 4 5)], 900⟩).spoken =
      [Emotion.happy] := by
  decide

theorem spokenStep_speakEmotion (s0 s : App) (e : Emotion)
    (h1 : s.lastSpokenEmotion = s0.lastSpokenEmotion) (h2 : s.spoken = s0.spoken) :
    SpokenStep s0 (speakEmotion s e) := by
  unfold speakEmotion
  split
  · exact Or.inl ⟨h1, h2⟩
  · rename_i hne
    exact Or.inr ⟨e, by rw [← h1]; exact hne, rfl, by rw [← h2]⟩

theorem detectEmotionTry_spokenStep (s : App) (p : Poll) :
    (∀ s1, detectEmotionTry s p = Except.ok s1 → SpokenStep s s1) ∧
    (∀ message s1, detectEmotionTry s p = Except.error (message, s1) → SpokenStep s s1) := by
  obtain ⟨r, det, now⟩ := p
  cases det with
  | throws message =>
    constructor
    · intro s1 h; simp [detectEmotionTry] at h
    · intro m s1 h
      simp only [detectEmotionTry, Except.error.injEq, Prod.mk.injEq] at h
      rw [← h.2]
      exact Or.inl ⟨rfl, rfl⟩
  | noFace =>
    constructor
    · intro s1 h
      simp only [detectEmotionTry, Except.ok.injEq] at h
      rw [← h]
      exact Or.inl ⟨rfl, rfl⟩
    · intro m s1 h; simp [detectEmotionTry] at h
  | face D =>
    cases hsort : sortDescending D with
    | nil =>
      constructor
      · intro s1 h; simp [detectEmotionTry, hsort] at h
      · intro m s1 h
        simp only [detectEmotionTry, hsort, Except.error.injEq, Prod.mk.injEq] at h
        rw [← h.2]
        exact Or.inl ⟨rfl, rfl⟩
    | cons e rest =>
      rw [detectEmotionTry_face s r D now e rest hsort]
      constructor
      · intro s1 h
        split at h
        · simp only [Except.ok.injEq] at h
          rw [← h]
          obtain ⟨-, -, g3, g4, -⟩ := addToHistory_fields
            (updateCurrentEmotion
              { showFaceStatus { s with faceDetected := true } with
                currentEmotion := some ⟨e.1, e.2, now⟩ } (some ⟨e.1, e.2, now⟩))
            ⟨e.1, e.2, now⟩
          exact spokenStep_speakEmotion s _ e.1 (g3.trans rfl) (g4.trans rfl)
        · simp only [Except.ok.injEq] at h
          rw [← h]
          exact Or.inl ⟨rfl, rfl⟩
      · intro m s1 h
        split at h <;> simp at h

theorem spokenStep_afterResume (s : App) (p : Poll) : SpokenStep s (afterResume s p) := by
  unfold afterResume detectEmotionResume
  cases htry : detectEmotionTry s p with
  | ok s1 => exact (detectEmotionTry_spokenStep s p).1 s1 htry
  | error err =>
    obtain ⟨m, s1⟩ := err
    exact (detectEmotionTry_spokenStep s p).2 m s1 htry

theorem spokenStep_afterPoll (s : App) (p : Poll) : SpokenStep s (afterPoll s p) := by
  unfold afterPoll detectEmotion
  by_cases hg : (!s.isCameraOn || !s.isModelLoaded) = true
  · rw [if_pos hg]
    exact Or.inl ⟨rfl, rfl⟩
  · rw [if_neg hg]
    by_cases hr : p.readyState ≠ 4
    · rw [if_pos hr]
      exact Or.inl ⟨rfl, rfl⟩
    · rw [if_neg hr]
      exact spokenStep_afterResume s p

/-- No event changes the debouncer's memory except by narrating a new label. -/
theorem spokenStep_step (s : App) (e : Event) : SpokenStep s (step s e) := by
  cases e with
  | modelsLoaded => exact Or.inl ⟨rfl, rfl⟩
  | cameraClick granted =>
    show SpokenStep s (onCameraClick s granted)
    unfold onCameraClick
    split
    · obtain ⟨-, -, -, -, -, -, h7, h8, -⟩ := stopCamera_fields s
      exact Or.inl ⟨h7, h8⟩
    · cases granted with
      | none => exact Or.inl ⟨rfl, rfl⟩
      | some media => exact Or.inl ⟨rfl, rfl⟩
  | cameraGranted media => exact Or.inl ⟨rfl, rfl⟩
  | loadedMetadata =>
    show SpokenStep s (startDetection s)
    unfold startDetection
    split <;> exact Or.inl ⟨rfl, rfl⟩
  | poll p => exact spokenStep_afterPoll s p
  | pollCompletes p => exact spokenStep_afterResume s p
  | clock t =>
    show SpokenStep s (fireDue s t)
    rw [fireDue_eq]
    split <;> exact Or.inl ⟨rfl, rfl⟩

theorem spokenInv_of_spokenStep (s s1 : App) (hstep : SpokenStep s s1) (hinv : SpokenInv s) :
    SpokenInv s1 := by
  unfold SpokenInv at hinv ⊢
  rcases hstep with ⟨h1, h2⟩ | ⟨l, -, h1, h2⟩
  · rw [h1, h2]; exact hinv
  · rw [h1, h2, List.getLast?_append]
    rfl

theorem spokenInv_run (events : List Event) : ∀ s : App, SpokenInv s →
    SpokenInv (run s events) := by
  induction events with
  | nil => intro s h; exact h
  | cons e es ih =>
    intro s h
    exact ih (step s e) (spokenInv_of_spokenStep s _ (spokenStep_step s e) h)

theorem Reachable.spokenInv {s : App} (h : Reachable s) : SpokenInv s := by
  induction h with
  | start => rfl
  | next s e _ ih => exact spokenInv_of_spokenStep s _ (spokenStep_step s e) ih

theorem spokenInv_stopCamera (s : App) (hinv : SpokenInv s) : SpokenInv (stopCamera s) := by
  obtain ⟨-, -, -, -, -, -, h7, h8, -⟩ := stopCamera_fields s
  unfold SpokenInv
  rw [h7, h8]
  exact hinv

theorem reachable_narratedHappy : Reachable narratedHappy :=
  Reachable.next readyApp
    (Event.poll ⟨4, Detection.face [(Emotion.happy, mkRat 9 10)], 5⟩) reachable_readyApp

/-- C8, amended. `lastSpokenEmotion` persists across polls and across a camera
stop: `stopCamera` leaves it and the speech queue unchanged, no event resets it
to null, and in every reachable state it is the label narrated most recently.
So a label accepted after the camera was stopped, whatever happened since the
stop, is narrated exactly when it differs from the label narrated most
recently; that label is the last one narrated before the stop unless something
was narrated since (by a detection still in flight at the stop), and when
nothing was, a label equal to the last one narrated before the stop is not
narrated. A poll that passes its guards accepts through the same resumption. -/
theorem lastSpokenEmotion_survives_stop (s : App) :
    ((stopCamera s).lastSpokenEmotion = s.lastSpokenEmotion ∧
      (stopCamera s).spoken = s.spoken) ∧
    (∀ e : Event, s.lastSpokenEmotion ≠ none → (step s e).lastSpokenEmotion ≠ none) ∧
    (Reachable s → s.lastSpokenEmotion = s.spoken.getLast?) ∧
    (Reachable s →
      ∀ (events : List Event) (r now : Nat) (D : List (Emotion × ℚ)) (l : Emotion) (c : ℚ),
        (sortDescending D).head? = some (l, c) → 1 / 10 < c →
        (afterResume (run (stopCamera s) events) ⟨r, Detection.face D, now⟩).spoken =
          if (run (stopCamera s) events).spoken.getLast? = some l then
            (run (stopCamera s) events).spoken
          else (run (stopCamera s) events).spoken ++ [l]) ∧
    (Reachable s →
      ∀ (events : List Event) (r now : Nat) (D : List (Emotion × ℚ)) (l : Emotion) (c : ℚ),
        (sortDescending D).head? = some (l, c) → 1 / 10 < c →
        (run (stopCamera s) events).spoken = s.spoken →
        (afterResume (run (stopCamera s) events) ⟨r, Detection.face D, now⟩).spoken =
          if s.lastSpokenEmotion = some l then s.spoken else s.spoken ++ [l]) ∧
    (∀ p : Poll, s.isCameraOn = true → s.isModelLoaded = true → p.readyState = 4 →
      afterPoll s p = afterResume s p) := by
  obtain ⟨-, -, -, -, -, -, h7, h8, -⟩ := stopCamera_fields s
  have hlater : Reachable s → ∀ events : List Event,
      (run (stopCamera s) events).lastSpokenEmotion =
        (run (stopCamera s) events).spoken.getLast? := by
    intro hreach events
    exact spokenInv_run events _ (spokenInv_stopCamera s hreach.spokenInv)
  refine ⟨⟨h7, h8⟩, ?_, fun hreach => hreach.spokenInv, ?_, ?_,
    fun p hcam hmodel hready => afterPoll_eq_afterResume s p hcam hmodel hready⟩
  · intro e hne
    rcases spokenStep_step s e with ⟨h1, -⟩ | ⟨l, -, h1, -⟩
    · rw [h1]; exact hne
    · rw [h1]; exact Option.some_ne_none l
  · intro hreach events r now D l c hhead hacc
    obtain ⟨-, a2, -⟩ := afterResume_accepted (run (stopCamera s) events) r D now l c hhead hacc
    rw [a2, hlater hreach events]
  · intro hreach events r now D l c hhead hacc hquiet
    obtain ⟨-, a2, -⟩ := afterResume_accepted (run (stopCamera s) events) r D now l c hhead hacc
    have hsame : (run (stopCamera s) events).lastSpokenEmotion = s.lastSpokenEmotion := by
      rw [hlater hreach events, hquiet]
      exact hreach.spokenInv.symm
    rw [a2, hsame, hquiet]

/-- Witness for C8 (amended): happy was narrated; the camera is stopped and
started again. If a detection in flight at the stop narrates sad in between,
the happy accepted after the restart is narrated; if nothing is narrated in
between, it is not. -/
theorem lastSpokenEmotion_survives_stop_witness :
    (Reachable narratedHappy ∧
      (sortDescending [(Emotion.happy, mkRat 4 5)]).head? = some (Emotion.happy, mkRat 4 5) ∧
      (1 : ℚ) / 10 < mkRat 4 5 ∧
      (run (stopCamera narratedHappy)
        [Event.cameraClick (some 8), Event.loadedMetadata]).spoken = narratedHappy.spoken) ∧
    (afterResume (run (stopCamera narratedHappy)
        [Event.pollCompletes ⟨4, Detection.face [(Emotion.sad, mkRat 4 5)], 50⟩,
          Event.cameraClick (some 8), Event.loadedMetadata])
        ⟨4, Detection.face [(Emotion.happy, mkRat 4 5)], 900⟩).spoken =
      [Emotion.happy, Emotion.sad, Emotion.happy] ∧
    (afterResume (run (stopCamera narratedHappy)
        [Event.cameraClick (some 8), Event.loadedMetadata])
        ⟨4, Detection.face [(Emotion.happy, mkRat 4 5)], 900⟩).spoken =
      [Emotion.happy] :=
  ⟨⟨reachable_narratedHappy, by decide, by norm_num [Rat.mkRat_eq_div], by decide⟩,
    ((lastSpokenEmotion_survives_stop narratedHappy).2.2.2.1 reachable_narratedHappy
      [Event.pollCompletes ⟨4, Detection.face [(Emotion.sad, mkRat 4 5)], 50⟩,
        Event.cameraClick (some 8), Event.loadedMetadata]
      4 900 [(Emotion.happy, mkRat 4 5)] Emotion.happy (mkRat 4 5)
      (by decide) (by norm_num [Rat.mkRat_eq_div])).trans (by decide),
    ((lastSpokenEmotion_survives_stop narratedHappy).2.2.2.2.1 reachable_narratedHappy
      [Event.cameraClick (some 8), Event.loadedMetadata]
      4 900 [(Emotion.happy, mkRat 4 5)] Emotion.happy (mkRat 4 5)
      (by decide) (by norm_num [Rat.mkRat_eq_div]) (by decide)).trans (by decide)⟩

/-! ## C10: a failing detection -/

/-- C10. When the detection capability throws during a poll, `detectEmotion`
still completes normally: the poll is skipped by a guard, or the exception is
caught and only logged. The polling flag and the polling timer are untouched,
so a running detection loop keeps running. -/
theorem detectEmotion_catches (s : App) (r now : Nat) (message : String) :
    ∃ s1, detectEmotion s ⟨r, Detection.throws message, now⟩ = Except.ok s1 ∧
      (s1 = s ∨ s1 = { s with consoleErrors := s.consoleErrors ++ [message] }) ∧
      s1.isDetecting = s.isDetecting ∧
      s1.detectionInterval = s.detectionInterval ∧
      s1.intervals = s.intervals := by
  unfold detectEmotion
  split
  · exact ⟨s, rfl, Or.inl rfl, rfl, rfl, rfl⟩
  · split
    · exact ⟨s, rfl, Or.inl rfl, rfl, rfl, rfl⟩
    · exact ⟨_, rfl, Or.inr rfl, rfl, rfl, rfl⟩

/-! ## C6: the delayed clear -/

theorem afterPoll_face_faceDetected (s : App) (D : List (Emotion × ℚ)) (now : Nat)
    (hcam : s.isCameraOn = true) (hmodel : s.isModelLoaded = true) :
    (afterPoll s ⟨4, Detection.face D, now⟩).faceDetected = true := by
  cases hsort : sortDescending D with
  | nil =>
    simp [afterPoll, detectEmotion, detectEmotionResume, detectEmotionTry, hcam, hmodel, hsort,
      showFaceStatus]
  | cons e rest =>
    have htry := detectEmotionTry_face s 4 D now e rest hsort
    by_cases hacc : e.2 > acceptanceThreshold
    · rw [if_pos hacc] at htry
      rw [afterPoll_eq s _ _ (detectEmotion_of_try_ok s _ _ hcam hmodel rfl htry)]
      obtain ⟨-, -, -, -, -, -, h7, -⟩ := speakEmotion_fields (addToHistory
        (updateCurrentEmotion
          { showFaceStatus { s with faceDetected := true } with
            currentEmotion := some ⟨e.1, e.2, now⟩ } (some ⟨e.1, e.2, now⟩)) ⟨e.1, e.2, now⟩) e.1
      obtain ⟨-, -, -, -, -, -, -, g8, -⟩ := addToHistory_fields
        (updateCurrentEmotion
          { showFaceStatus { s with faceDetected := true } with
            currentEmotion := some ⟨e.1, e.2, now⟩ } (some ⟨e.1, e.2, now⟩)) ⟨e.1, e.2, now⟩
      rw [h7, g8]
      rfl
    · rw [if_neg hacc] at htry
      rw [afterPoll_eq s _ _ (detectEmotion_of_try_ok s _ _ hcam hmodel rfl htry)]
      rfl

theorem fireDue_ready (s : App) (t : Nat) :
    (fireDue s t).isCameraOn = s.isCameraOn ∧ (fireDue s t).isModelLoaded = s.isModelLoaded := by
  rw [fireDue_eq]
  split <;> exact ⟨rfl, rfl⟩

theorem runPolls_ready (polls : List Poll) : ∀ s : App,
    (runPolls s polls).isCameraOn = s.isCameraOn ∧
    (runPolls s polls).isModelLoaded = s.isModelLoaded := by
  induction polls with
  | nil => intro s; exact ⟨rfl, rfl⟩
  | cons p ps ih =>
    intro s
    have hstep : runPolls s (p :: ps) = runPolls (afterPoll (fireDue s p.now) p) ps := rfl
    obtain ⟨s1, hok, hframe⟩ := detectEmotion_ok (fireDue s p.now) p
    obtain ⟨f1, f2⟩ := fireDue_ready s p.now
    obtain ⟨i1, i2⟩ := ih (afterPoll (fireDue s p.now) p)
    rw [hstep, i1, i2, afterPoll_eq _ _ s1 hok, hframe.2.2.2.1, hframe.2.2.2.2.1, f1, f2]
    exact ⟨rfl, rfl⟩

/-- C6 as stated fails: the face is lost at 0 ms, found again at 200 ms and
lost again at 400 ms. Just before 1000 ms the panel still shows the observation
made at 200 ms; at 1000 ms the callback scheduled by the poll at 0 ms fires
(the one scheduled at 400 ms stays pending) and clears the panel, although a
poll within its 1000 ms had a result. -/
theorem graceClear_clears_after_redetection :
    flicker.timeouts = [1000, 1400] ∧
    (fireDue flicker 999).emotionPanel = Panel.showing ⟨Emotion.happy, mkRat 9 10, 200⟩ ∧
    (fireDue flicker 1000).emotionPanel = Panel.noFaceDetected ∧
    (fireDue flicker 1000).timeouts = [1400] := by
  decide

/-- C6, amended. The delayed clear looks at `faceDetected` at the moment it
fires: it leaves the state alone when a face is present then and resets the
panel otherwise. So on every schedule of polls whose latest poll had a
result, the callbacks that fire afterwards, whichever polls scheduled them, do
not clear the current-emotion projection. -/
theorem graceClear_observes_presence (s : App) :
    (s.faceDetected = true → graceClear s = s) ∧
    (s.faceDetected = false →
      graceClear s = { s with emotionPanel := Panel.noFaceDetected }) ∧
    (∀ (polls : List Poll) (D : List (Emotion × ℚ)) (now t : Nat),
      s.isCameraOn = true → s.isModelLoaded = true →
      (fireDue (runPolls s (polls ++ [⟨4, Detection.face D, now⟩])) t).emotionPanel =
        (runPolls s (polls ++ [⟨4, Detection.face D, now⟩])).emotionPanel) := by
  refine ⟨?_, ?_, ?_⟩
  · intro h
    rw [graceClear_eq, if_pos h]
  · intro h
    rw [graceClear_eq, if_neg (by rw [h]; exact Bool.false_ne_true)]
  · intro polls D now t hcam hmodel
    have hstep : runPolls s (polls ++ [⟨4, Detection.face D, now⟩]) =
        afterPoll (fireDue (runPolls s polls) now) ⟨4, Detection.face D, now⟩ := by
      simp only [runPolls, List.foldl_append, List.foldl_cons, List.foldl_nil]
    obtain ⟨r1, r2⟩ := runPolls_ready polls s
    obtain ⟨f1, f2⟩ := fireDue_ready (runPolls s polls) now
    have hface := afterPoll_face_faceDetected (fireDue (runPolls s polls) now) D now
      (by rw [f1, r1]; exact hcam) (by rw [f2, r2]; exact hmodel)
    rw [hstep, fireDue_eq, if_pos (Or.inl hface)]

/-- Witness for C6 (amended): the face is lost at 0 ms and found again at
200 ms; the callback due at 1000 ms leaves the panel as it is. -/
theorem graceClear_observes_presence_witness :
    (readyApp.isCameraOn = true ∧ readyApp.isModelLoaded = true) ∧
    (fireDue (runPolls readyApp ([⟨4, Detection.noFace, 0⟩] ++
        [⟨4, Detection.face [(Emotion.happy, mkRat 9 10)], 200⟩])) 1000).emotionPanel =
      (runPolls readyApp ([⟨4, Detection.noFace, 0⟩] ++
        [⟨4, Detection.face [(Emotion.happy, mkRat 9 10)], 200⟩])).emotionPanel ∧
    (runPolls readyApp ([⟨4, Detection.noFace, 0⟩] ++
        [⟨4, Detection.face [(Emotion.happy, mkRat 9 10)], 200⟩])).emotionPanel =
      Panel.showing ⟨Emotion.happy, mkRat 9 10, 200⟩ ∧
    (runPolls readyApp ([⟨4, Detection.noFace, 0⟩] ++
        [⟨4, Detection.face [(Emotion.happy, mkRat 9 10)], 200⟩])).timeouts = [1000] :=
  ⟨⟨by decide, by decide⟩,
    (graceClear_observes_presence readyApp).2.2 [⟨4, Detection.noFace, 0⟩] _ 200 1000
      (by decide) (by decide),
    by decide, by decide⟩

end FaceMoodDetection
